import Mathlib

/-!
Verification development for the patch/backup/restore engine implemented in
`customize-and-build.py` (Cherry Studio customization script).

The script is embedded shallowly:
* file contents are `List Char`; the file system is a flat association list
  from paths to contents;
* the regular expressions used by the script are all of a restricted shape
  (literal characters interleaved with `\s*`), modelled by `Pattern` together
  with a backtracking matcher `matchA` that mirrors Python's greedy
  leftmost-match semantics, and `subAll` mirroring `re.sub` (replace all,
  non-overlapping, scanning left to right);
* Python `str.replace` is the special case of `subAll` on an all-literal
  pattern, and the `in` operator on strings is `containsB`;
* I/O exceptions raised by `shutil.copy2` are modelled by a predicate
  `fw : String → Bool` marking destination paths whose write raises; reads
  fail exactly on missing files.  Writes to target files performed by the
  modifier itself are modelled as always succeeding.
-/

set_option maxRecDepth 2000

namespace CustomizeBuild

/-- Characters of a string literal. -/
def chs (s : String) : List Char := s.data

/-- Python's regex whitespace class `\s` restricted to the characters it
actually matches on text patterns (ASCII whitespace plus the Unicode
whitespace code points). -/
def isWS (c : Char) : Bool :=
  c = ' ' || c = '\t' || c = '\n' || c = '\r' || c = '\x0b' || c = '\x0c' ||
  c = '\x1c' || c = '\x1d' || c = '\x1e' || c = '\x1f' || c = '\x85' || c = '\xa0' ||
  c = '\u1680' || ('\u2000' ≤ c && c ≤ '\u200a') || c = '\u2028' || c = '\u2029' ||
  c = '\u202f' || c = '\u205f' || c = '\u3000'

/-- Atoms of the restricted regular expressions used by the script: a literal
character, or `\s*`. -/
inductive RAtom where
  | lit : Char → RAtom
  | wsStar : RAtom
deriving DecidableEq

/-- A pattern is a sequence of atoms. -/
abbrev Pattern := List RAtom

/-- The all-literal pattern of a string. -/
def lits (s : String) : Pattern := (chs s).map RAtom.lit

/-- The fragment `\s*\n\s*` occurring between the literal chunks of the
script's multi-line patterns. -/
def wnw : Pattern := [RAtom.wsStar, RAtom.lit '\n', RAtom.wsStar]

/-- Whether a pattern contains at least one literal atom (all the script's
patterns do; such a pattern can only match a non-empty span). -/
def hasLit (p : Pattern) : Bool :=
  p.any fun a => match a with | .lit _ => true | .wsStar => false

/-- Backtracking helper for `\s*`: try consuming `i` characters first
(greedy: longest first), falling back to shorter runs. -/
def tryDrop (m : List Char → Option (List Char)) (s : List Char) : Nat → Option (List Char)
  | 0 => m s
  | i + 1 =>
    match m (s.drop (i + 1)) with
    | some r => some r
    | none => tryDrop m s i

/-- Fueled matcher: `matchF fuel p s` tries to match pattern `p` at the start
of `s`, returning the remainder of `s` after the matched span.  `\s*` is
greedy with backtracking, exactly Python's semantics for these patterns.
The fuel only needs to dominate the pattern length. -/
def matchF : Nat → Pattern → List Char → Option (List Char)
  | _ + 1, [], s => some s
  | fuel + 1, .lit c :: ps, x :: s => if x = c then matchF fuel ps s else none
  | _ + 1, .lit _ :: _, [] => none
  | fuel + 1, .wsStar :: ps, s =>
    tryDrop (fun t => matchF fuel ps t) s ((s.takeWhile isWS).length)
  | 0, _, _ => none

/-- Match a pattern at the start of a string. -/
def matchA (p : Pattern) (s : List Char) : Option (List Char) :=
  matchF (p.length + 1) p s

/-- Does `n` occur at the start of `h`? -/
def begWith : List Char → List Char → Bool
  | [], _ => true
  | _ :: _, [] => false
  | a :: n, b :: h => a = b && begWith n h

/-- Python's `n in h` on strings: does `n` occur as a contiguous substring? -/
def containsB (n : List Char) : List Char → Bool
  | [] => begWith n []
  | c :: s => begWith n (c :: s) || containsB n s

/-- Python's `re.search`: does the pattern match at some position? -/
def rsearch (p : Pattern) : List Char → Bool
  | [] => (matchA p []).isSome
  | c :: s => (matchA p (c :: s)).isSome || rsearch p s

/-- Fueled scan of `re.sub` (count=0): at each position try the pattern;
on a (non-empty) match emit the replacement and continue after the span,
otherwise copy one character.  All patterns used by the script contain a
literal, so matches are never empty and the `else s` branch is unreachable. -/
def subGo (p : Pattern) (r : List Char) : Nat → List Char → List Char
  | 0, s => s
  | fuel + 1, s =>
    match matchA p s with
    | some rest => if rest.length < s.length then r ++ subGo p r fuel rest else s
    | none =>
      match s with
      | [] => []
      | c :: s' => c :: subGo p r fuel s'

/-- Python's `re.sub(p, r, s)` for the script's patterns. -/
def subAll (p : Pattern) (r : List Char) (s : List Char) : List Char :=
  subGo p r s.length s

/-- Python's `str.replace(old, new)` (all occurrences, left to right,
non-overlapping): the literal-pattern case of `subAll`. -/
def replAll (old new : List Char) (s : List Char) : List Char :=
  subAll (old.map RAtom.lit) new s

/-- A flat file system: association list from paths to text contents.
`read` returns the most recent binding; a missing path models the
`FileNotFoundError` branch of the script. -/
structure FS where
  files : List (String × List Char)
deriving DecidableEq

/-- Lookup of the most recent binding of a path. -/
def lookupF : List (String × List Char) → String → Option (List Char)
  | [], _ => none
  | (q, c) :: rest, p => if q = p then some c else lookupF rest p

/-- Read a file's contents. -/
def FS.read (fs : FS) (p : String) : Option (List Char) :=
  lookupF fs.files p

/-- Overwrite (or create) a file. -/
def FS.write (fs : FS) (p : String) (c : List Char) : FS :=
  ⟨(p, c) :: fs.files⟩

theorem FS.read_write_self (fs : FS) (p : String) (c : List Char) :
    (fs.write p c).read p = some c := by
  simp [FS.read, FS.write, lookupF]

theorem FS.read_write_ne (fs : FS) (p q : String) (c : List Char) (h : p ≠ q) :
    (fs.write p c).read q = fs.read q := by
  simp [FS.read, FS.write, lookupF, h]

/- Sanity checks of the matcher against Python's behaviour. -/

example : subAll (lits "ab") (chs "X") (chs "zabqab") = chs "zXqX" := by decide

example : subAll (lits "," ++ wnw ++ lits "H") [] (chs "a,\n  \n Hb") = chs "ab" := by
  decide

example : rsearch (lits "b" ++ wnw ++ lits "c") (chs "a b \n\n c d") = true := by decide

example : containsB (chs "bc") (chs "abcd") = true := by decide

example : containsB (chs "bd") (chs "abcd") = false := by decide

/-! ## Constants from the source: paths, patterns, replacement texts -/

/-- Target path of `modify_settings_page` (main, files_to_modify). -/
def settingsPagePath : String := "src/renderer/src/pages/settings/SettingsPage.tsx"

/-- Target path of `modify_bailian_strategy`. -/
def bailianPath : String := "src/main/knowledge/reranker/strategies/BailianStrategy.ts"

/-- Target path of `modify_electron_builder_yml`. -/
def ebPath : String := "electron-builder.yml"

/-- Target path of `modify_package_json`. -/
def pkgPath : String := "package.json"

/-- First target of `hide_update_ui`. -/
def btnPath : String := "src/renderer/src/pages/home/components/UpdateAppButton.tsx"

/-- Second target of `hide_update_ui`. -/
def aboutPath : String := "src/renderer/src/pages/settings/AboutSettings.tsx"

/-- Third target of `hide_update_ui`. -/
def storePath : String := "src/renderer/src/store/settings.ts"

/-- The fixed backup directory of `main`. -/
def backupDir : String := ".customize-backup"

/-- The fixed file list backed up by `main` (lines 561-569). -/
def files_to_modify : List String :=
  [settingsPagePath, bailianPath, ebPath, pkgPath, btnPath, aboutPath, storePath]

/-- Pattern removing the DataSettings import (modify_settings_page, 1st re.sub). -/
def spPat1 : Pattern := lits "import DataSettings from \x27./DataSettings/DataSettings\x27\n"

/-- Pattern removing HardDrive from the icon imports (2nd re.sub): `,\s*\n\s*HardDrive`. -/
def spPat2 : Pattern := lits "," ++ wnw ++ lits "HardDrive"

/-- Pattern removing the data-settings menu item (3rd re.sub). -/
def spPat3 : Pattern :=
  lits "<MenuItemLink to=\"/settings/data\">" ++ wnw ++
  lits "<MenuItem className=\x7bisRoute(\x27/settings/data\x27)\x7d>" ++ wnw ++
  lits "<HardDrive size=\x7b18\x7d />" ++ wnw ++
  lits "\x7bt(\x27settings.data.title\x27)\x7d" ++ wnw ++
  lits "</MenuItem>" ++ wnw ++
  lits "</MenuItemLink>" ++ [RAtom.wsStar, RAtom.lit '\n']

/-- Pattern removing the data-settings route (4th re.sub). -/
def spPat4 : Pattern :=
  lits "<Route path=\"data\" element=\x7b<DataSettings />\x7d />" ++
  [RAtom.wsStar, RAtom.lit '\n']

/-- Already-applied marker checked by `modify_bailian_strategy`. -/
def bailianMarker : List Char := chs "buildUrl(baseURL?: string)"

/-- The `old_method` pattern of `modify_bailian_strategy`. -/
def bailianOldPat : Pattern :=
  lits "buildUrl(): string \x7b" ++ wnw ++
  lits ("return \x27https://dashscope.aliyuncs.com" ++
        "/api/v1/services/rerank/text-rerank/text-rerank\x27") ++ wnw ++
  lits "\x7d"

/-- The `new_method` replacement text of `modify_bailian_strategy`. -/
def bailianNew : List Char :=
  chs "buildUrl(baseURL?: string): string \x7b\n    // 如果提供了自定义 baseURL，使用自定义地址\n    if (baseURL) \x7b\n      const cleanBaseURL = baseURL.endsWith(\x27/\x27) ? baseURL.slice(0, -1) : baseURL\n      return \x60$\x7bcleanBaseURL\x7d/api/v1/services/rerank/text-rerank/text-rerank\x60\n    \x7d\n    // 否则使用默认的阿里云官方地址\n    return \x27https://dashscope.aliyuncs.com/api/v1/services/rerank/text-rerank/text-rerank\x27\n  \x7d"

/-- Already-applied marker of the UpdateAppButton step of `hide_update_ui`. -/
def updateBtnMarker : List Char := chs "return null // customized: hidden"

/-- The literal regex group matched in UpdateAppButton.tsx. -/
def updateBtnLit : List Char := chs "const UpdateAppButton: FC = () => \x7b"

/-- Replacement for the UpdateAppButton pattern: the matched group itself
(`\1`) followed by the inserted early return. -/
def updateBtnRepl : List Char := updateBtnLit ++ chs "\n  return null // customized: hidden"

/-- Already-applied marker of the AboutSettings step of `hide_update_ui`. -/
def aboutMarker : List Char := chs "// customized: update ui hidden"

/-- `old_check_btn` literal removed from AboutSettings.tsx. -/
def aboutOldCheckBtn : List Char :=
  chs "          \x7b!isPortable && (\n            <CheckUpdateButton\n              onClick=\x7bonCheckUpdate\x7d\n              loading=\x7bupdate.checking\x7d\n              disabled=\x7bupdate.downloading || update.checking\x7d>\n              \x7bupdate.downloading\n                ? t(\x27settings.about.downloading\x27)\n                : update.available\n                  ? t(\x27settings.about.checkUpdate.available\x27)\n                  : t(\x27settings.about.checkUpdate.label\x27)\x7d\n            </CheckUpdateButton>\n          )\x7d"

/-- `old_update_block` literal removed from AboutSettings.tsx. -/
def aboutOldUpdateBlock : List Char :=
  chs "        \x7b!isPortable && (\n          <>\n            <SettingDivider />\n            <SettingRow>\n              <SettingRowTitle>\x7bt(\x27settings.general.auto_check_update.title\x27)\x7d</SettingRowTitle>\n              <Switch value=\x7bautoCheckUpdate\x7d onChange=\x7b(v) => setAutoCheckUpdate(v)\x7d />\n            </SettingRow>\n            <SettingDivider />\n            <SettingRow>\n              <SettingRowTitle>\x7bt(\x27settings.general.test_plan.title\x27)\x7d</SettingRowTitle>\n              <Tooltip title=\x7bt(\x27settings.general.test_plan.tooltip\x27)\x7d trigger=\x7b[\x27hover\x27, \x27focus\x27]\x7d>\n                <Switch value=\x7btestPlan\x7d onChange=\x7b(v) => handleSetTestPlan(v)\x7d />\n              </Tooltip>\n            </SettingRow>\n            \x7btestPlan && (\n              <>\n                <SettingDivider />\n                <SettingRow>\n                  <SettingRowTitle>\x7bt(\x27settings.general.test_plan.version_options\x27)\x7d</SettingRowTitle>\n                  <Radio.Group\n                    size=\"small\"\n                    buttonStyle=\"solid\"\n                    value=\x7bgetTestChannel()\x7d\n                    onChange=\x7b(e) => handleTestChannelChange(e.target.value)\x7d>\n                    \x7bgetAvailableTestChannels().map((option) => (\n                      <Tooltip key=\x7boption.value\x7d title=\x7boption.tooltip\x7d>\n                        <Radio.Button value=\x7boption.value\x7d>\x7boption.label\x7d</Radio.Button>\n                      </Tooltip>\n                    ))\x7d\n                  </Radio.Group>\n                </SettingRow>\n              </>\n            )\x7d\n          </>\n        )\x7d"

/-- The unused `isPortable` state line removed from AboutSettings.tsx. -/
def aboutIsPortableLine : List Char :=
  chs "  const [isPortable, setIsPortable] = useState(false)\n"

/-- The `useSettings()` destructuring line, original form. -/
def aboutUseSettingsOld : List Char :=
  chs "  const \x7b autoCheckUpdate, setAutoCheckUpdate, testPlan, setTestPlan, testChannel, setTestChannel \x7d = useSettings()\n"

/-- The `useSettings()` destructuring line, reduced form. -/
def aboutUseSettingsNew : List Char :=
  chs "  const \x7b autoCheckUpdate, setAutoCheckUpdate \x7d = useSettings()\n"

/-- The `onCheckUpdate` block removed from AboutSettings.tsx. -/
def aboutOnCheckUpdateOld : List Char :=
  chs "\n  const onCheckUpdate = debounce(\n    async () => \x7b\n      if (update.checking || update.downloading) \x7b\n        return\n      \x7d\n\n      if (update.downloaded) \x7b\n        // Open update dialog directly in renderer\n        UpdateDialogPopup.show(\x7b releaseInfo: update.info || null \x7d)\n        return\n      \x7d\n\n      dispatch(setUpdateState(\x7b checking: true \x7d))\n\n      try \x7b\n        await window.api.checkForUpdate()\n      \x7d catch (error) \x7b\n        window.toast.error(t(\x27settings.about.updateError\x27))\n      \x7d\n\n      dispatch(setUpdateState(\x7b checking: false \x7d))\n    \x7d,\n    2000,\n    \x7b leading: true, trailing: false \x7d\n  )\n"

/-- The test-channel helper block removed from AboutSettings.tsx. -/
def aboutChannelOld : List Char :=
  chs "\n  const currentChannelByVersion =\n    [\n      \x7b pattern: \x60-$\x7bUpgradeChannel.BETA\x7d.\x60, channel: UpgradeChannel.BETA \x7d,\n      \x7b pattern: \x60-$\x7bUpgradeChannel.RC\x7d.\x60, channel: UpgradeChannel.RC \x7d\n    ].find((\x7b pattern \x7d) => version.includes(pattern))?.channel || UpgradeChannel.LATEST\n\n  const handleTestChannelChange = async (value: UpgradeChannel) => \x7b\n    if (testPlan && currentChannelByVersion !== UpgradeChannel.LATEST && value !== currentChannelByVersion) \x7b\n      window.toast.warning(t(\x27settings.general.test_plan.version_channel_not_match\x27))\n    \x7d\n    setTestChannel(value)\n    // Clear update info when switching upgrade channel\n    dispatch(\n      setUpdateState(\x7b\n        available: false,\n        info: null,\n        downloaded: false,\n        checking: false,\n        downloading: false,\n        downloadProgress: 0\n      \x7d)\n    )\n  \x7d\n\n  // Get available test version options based on current version\n  const getAvailableTestChannels = () => \x7b\n    return [\n      \x7b\n        tooltip: t(\x27settings.general.test_plan.rc_version_tooltip\x27),\n        label: t(\x27settings.general.test_plan.rc_version\x27),\n        value: UpgradeChannel.RC\n      \x7d,\n      \x7b\n        tooltip: t(\x27settings.general.test_plan.beta_version_tooltip\x27),\n        label: t(\x27settings.general.test_plan.beta_version\x27),\n        value: UpgradeChannel.BETA\n      \x7d\n    ]\n  \x7d\n\n  const handleSetTestPlan = (value: boolean) => \x7b\n    setTestPlan(value)\n    dispatch(\n      setUpdateState(\x7b\n        available: false,\n        info: null,\n        downloaded: false,\n        checking: false,\n        downloading: false,\n        downloadProgress: 0\n      \x7d)\n    )\n\n    if (value === true) \x7b\n      setTestChannel(getTestChannel())\n    \x7d\n  \x7d\n\n  const getTestChannel = () => \x7b\n    if (testChannel === UpgradeChannel.LATEST) \x7b\n      return UpgradeChannel.RC\n    \x7d\n    return testChannel\n  \x7d\n"

/-- The useEffect body lines, original form. -/
def aboutUseEffectOld : List Char :=
  chs "      setVersion(appInfo.version)\n      setIsPortable(appInfo.isPortable)\n"

/-- The useEffect body lines, reduced form. -/
def aboutUseEffectNew : List Char :=
  chs "      setVersion(appInfo.version)\n"

/-- The styled `CheckUpdateButton` component line removed from AboutSettings.tsx. -/
def aboutStyledOld : List Char :=
  chs "\nconst CheckUpdateButton = styled(Button)\x60\x60\n"

/-- The unused `dispatch` line removed from AboutSettings.tsx. -/
def aboutDispatchLine : List Char :=
  chs "  const dispatch = useAppDispatch()\n"

/-- Already-applied marker (and replacement text) of the settings.ts step. -/
def storeMarker : List Char := chs "autoCheckUpdate: false, // customized"

/-- The literal pattern replaced in settings.ts. -/
def storeLit : List Char := chs "autoCheckUpdate: true,"

/-! ## FileModifier: content-level transformations

Each rule is given both as a pure content transformation (the view the
spec's idempotence/drift properties quantify over) and as a file-level
operation mirroring the `try/except`, dry-run gating and writes of the
source.  The Boolean outcome is the method's return value. -/

/-- The four substitutions of `modify_settings_page`, in source order. -/
def settingsPageSub (c : List Char) : List Char :=
  subAll spPat4 [] (subAll spPat3 [] (subAll spPat2 [] (subAll spPat1 [] c)))

/-- Content-level `modify_settings_page`: the transformed content and the
outcome (unchanged content succeeds only when `DataSettings` is gone). -/
def settingsPageApply (c : List Char) : List Char × Bool :=
  let c' := settingsPageSub c
  if c' = c then
    if containsB (chs "DataSettings") c then (c, false) else (c, true)
  else (c', true)

/-- `FileModifier.modify_settings_page` (lines 161-217). -/
def modify_settings_page (dry : Bool) (fs : FS) (p : String) : FS × Bool :=
  match fs.read p with
  | none => (fs, false)
  | some c =>
    let c' := settingsPageSub c
    if c' = c then
      if containsB (chs "DataSettings") c then (fs, false) else (fs, true)
    else if dry then (fs, true)
    else (fs.write p c', true)

/-- Content-level `modify_bailian_strategy`: marker check, then the
precondition search, then the substitution. -/
def bailianApply (c : List Char) : List Char × Bool :=
  if containsB bailianMarker c then (c, true)
  else if rsearch bailianOldPat c then (subAll bailianOldPat bailianNew c, true)
  else (c, false)

/-- `FileModifier.modify_bailian_strategy` (lines 219-260). -/
def modify_bailian_strategy (dry : Bool) (fs : FS) (p : String) : FS × Bool :=
  match fs.read p with
  | none => (fs, false)
  | some c =>
    if containsB bailianMarker c then (fs, true)
    else if rsearch bailianOldPat c then
      if dry then (fs, true)
      else (fs.write p (subAll bailianOldPat bailianNew c), true)
    else (fs, false)

/-- Content-level UpdateAppButton step of `hide_update_ui`. -/
def updateBtnApply (c : List Char) : List Char :=
  if containsB updateBtnMarker c then c
  else replAll updateBtnLit updateBtnRepl c

/-- The chain of `str.replace` calls of the AboutSettings step, in source
order (lines 319-403). -/
def aboutReplaces (c : List Char) : List Char :=
  replAll aboutDispatchLine []
    (replAll aboutStyledOld (chs "\n")
      (replAll aboutUseEffectOld aboutUseEffectNew
        (replAll aboutChannelOld (chs "\n")
          (replAll aboutOnCheckUpdateOld (chs "\n")
            (replAll aboutUseSettingsOld aboutUseSettingsNew
              (replAll aboutIsPortableLine []
                (replAll aboutOldUpdateBlock []
                  (replAll aboutOldCheckBtn [] c))))))))

/-- Content-level AboutSettings step: replace chain then the appended marker. -/
def aboutApply (c : List Char) : List Char :=
  if containsB aboutMarker c then c
  else aboutReplaces c ++ '\n' :: aboutMarker

/-- Content-level settings.ts step. -/
def storeApply (c : List Char) : List Char :=
  if containsB storeMarker c then c
  else subAll (storeLit.map RAtom.lit) storeMarker c

/-- UpdateAppButton part of `hide_update_ui` (lines 288-309): the outcome is
false only when the file cannot be read (the `except` branch); a pattern that
does not match silently writes the unchanged content and counts as success. -/
def hideUpdateBtnStep (dry : Bool) (fs : FS) : FS × Bool :=
  match fs.read btnPath with
  | none => (fs, false)
  | some c =>
    if containsB updateBtnMarker c then (fs, true)
    else if dry then (fs, true)
    else (fs.write btnPath (replAll updateBtnLit updateBtnRepl c), true)

/-- AboutSettings part of `hide_update_ui` (lines 311-413). -/
def hideAboutStep (dry : Bool) (fs : FS) : FS × Bool :=
  match fs.read aboutPath with
  | none => (fs, false)
  | some c =>
    if containsB aboutMarker c then (fs, true)
    else if dry then (fs, true)
    else (fs.write aboutPath (aboutReplaces c ++ '\n' :: aboutMarker), true)

/-- settings.ts part of `hide_update_ui` (lines 415-436). -/
def hideStoreStep (dry : Bool) (fs : FS) : FS × Bool :=
  match fs.read storePath with
  | none => (fs, false)
  | some c =>
    if containsB storeMarker c then (fs, true)
    else if dry then (fs, true)
    else (fs.write storePath (subAll (storeLit.map RAtom.lit) storeMarker c), true)

/-- `FileModifier.hide_update_ui` (lines 284-438): three independent steps,
`success` is flipped only by per-step exceptions. -/
def hide_update_ui (dry : Bool) (fs : FS) : FS × Bool :=
  let r1 := hideUpdateBtnStep dry fs
  let r2 := hideAboutStep dry r1.1
  let r3 := hideStoreStep dry r2.1
  (r3.1, r1.2 && r2.2 && r3.2)

/-! ## Structured-document rules

`yaml.safe_load`/`yaml.dump` and `json.load`/`json.dump` belong to external
libraries; they are abstracted as load/dump parameters over a key/value view
of the document.  A load failure models the parse exception. -/

/-- Abstract loader for a structured document. -/
abbrev DocLoad := List Char → Option (List (String × String))

/-- Abstract serializer for a structured document. -/
abbrev DocDump := List (String × String) → List Char

/-- `config[key] = value` on the key/value view. -/
def setKey (kvs : List (String × String)) (k v : String) : List (String × String) :=
  if kvs.any (fun e => decide (e.1 = k)) then
    kvs.map (fun e => if e.1 = k then (k, v) else e)
  else kvs ++ [(k, v)]

/-- `FileModifier.modify_electron_builder_yml` (lines 262-282). -/
def modify_electron_builder_yml (yl : DocLoad) (yd : DocDump) (dry : Bool) (fs : FS)
    (p appId productName : String) : FS × Bool :=
  match fs.read p with
  | none => (fs, false)
  | some c =>
    match yl c with
    | none => (fs, false)
    | some kvs =>
      let kvs' := setKey (setKey kvs "appId" appId) "productName" productName
      if dry then (fs, true) else (fs.write p (yd kvs'), true)

/-- `FileModifier.modify_package_json` (lines 440-462). -/
def modify_package_json (jl : DocLoad) (jd : DocDump) (dry : Bool) (fs : FS)
    (p packageName productName version : String) : FS × Bool :=
  match fs.read p with
  | none => (fs, false)
  | some c =>
    match jl c with
    | none => (fs, false)
    | some kvs =>
      let kvs' := setKey (setKey (setKey kvs "name" packageName)
        "productName" productName) "version" version
      if dry then (fs, true) else (fs.write p (jd kvs'), true)

/-! ## BackupManager -/

/-- `os.path.basename`: the component after the last slash. -/
def basenameOf (p : String) : String :=
  String.mk ((p.data.reverse.takeWhile (fun c => c ≠ '/')).reverse)

/-- The backup location of a file: derived from the base name alone
(`os.path.join(backup_dir, basename + '.bak')`). -/
def backupPath (dir p : String) : String :=
  dir ++ "/" ++ basenameOf p ++ ".bak"

/-- The state of a `BackupManager`. -/
structure BM where
  backup_dir : String
  backed_up_files : List String
deriving DecidableEq

/-- `BackupManager.backup_file` (lines 123-138).  A missing source file is a
warning (false, no record); `fw` marks backup destinations whose
`shutil.copy2` raises (error, false, no record); otherwise the copy is
recorded after it succeeds. -/
def backup_file (fw : String → Bool) (bm : BM) (fs : FS) (p : String) :
    BM × FS × Bool :=
  match fs.read p with
  | none => (bm, fs, false)
  | some c =>
    let bp := backupPath bm.backup_dir p
    if fw bp then (bm, fs, false)
    else (⟨bm.backup_dir, bm.backed_up_files ++ [p]⟩, fs.write bp c, true)

/-- The loop body of `BackupManager.restore_all` (lines 140-151).  The single
`try` wraps the whole loop: a raising `shutil.copy2` (modelled by `fw` on the
destination, i.e. the original path) leaves the loop immediately with
`False`; a missing backup file is silently skipped. -/
def restoreGo (fw : String → Bool) (dir : String) : List String → FS → FS × Bool
  | [], fs => (fs, true)
  | p :: rest, fs =>
    match fs.read (backupPath dir p) with
    | none => restoreGo fw dir rest fs
    | some c =>
      if fw p then (fs, false)
      else restoreGo fw dir rest (fs.write p c)

/-- `BackupManager.restore_all`: iterates the in-memory
`backed_up_files` list. -/
def restore_all (fw : String → Bool) (bm : BM) (fs : FS) : FS × Bool :=
  restoreGo fw bm.backup_dir bm.backed_up_files fs

/-! ## Orchestrator (`main`) -/

/-- The backup loop of `main` (lines 571-574): results are ignored. -/
def backupGo (fw : String → Bool) : List String → BM → FS → BM × FS
  | [], bm, fs => (bm, fs)
  | p :: rest, bm, fs =>
    let r := backup_file fw bm fs p
    backupGo fw rest r.1 r.2.1

/-- The whole backup phase over the fixed file list. -/
def backupPhase (fw : String → Bool) (fs : FS) : BM × FS :=
  backupGo fw files_to_modify ⟨backupDir, []⟩ fs

/-- Configuration fields consumed by the orchestrator (`config_manager.get`
with their defaults already resolved). -/
structure Config where
  hideDataSettings : Bool
  applyBailianFix : Bool
  hideUpdateUI : Bool
  autoBuild : Bool
  appId : String
  productName : String
  packageName : String
  version : String

/-- Accumulated state of the modify phase: current file system, the recorded
per-rule outcomes, and the running `success` flag. -/
structure MState where
  fs : FS
  results : List (String × Bool)
  success : Bool
deriving DecidableEq

/-- One `if not rule(...): success = False` step of `main`, also recording
the outcome. -/
def runStep (name : String) (st : MState) (r : FS × Bool) : MState :=
  ⟨r.1, st.results ++ [(name, r.2)], st.success && r.2⟩

/-- One sequenced rule of the modify phase: its recorded name, its enablement
(from configuration; the two build-configuration rules are always enabled),
and its action. -/
abbrev MRule := String × Bool × (Bool → FS → FS × Bool)

/-- The rules of the modify phase of `main` (lines 580-611), in source
order. -/
def ruleList (yl : DocLoad) (yd : DocDump) (jl : DocLoad) (jd : DocDump)
    (cfg : Config) : List MRule :=
  [("hideDataSettings", cfg.hideDataSettings,
      fun d fs => modify_settings_page d fs settingsPagePath),
   ("applyBailianFix", cfg.applyBailianFix,
      fun d fs => modify_bailian_strategy d fs bailianPath),
   ("hideUpdateUI", cfg.hideUpdateUI,
      fun d fs => hide_update_ui d fs),
   ("electronBuilderYml", true,
      fun d fs => modify_electron_builder_yml yl yd d fs ebPath cfg.appId cfg.productName),
   ("packageJson", true,
      fun d fs => modify_package_json jl jd d fs pkgPath
        cfg.packageName cfg.productName cfg.version)]

/-- Sequencing of the modify phase: each enabled rule runs on the current
file system regardless of earlier outcomes (`if not rule(): success = False`
in sequence). -/
def mpGo (dry : Bool) : List MRule → MState → MState
  | [], st => st
  | (n, e, f) :: rest, st =>
    mpGo dry rest (if e then runStep n st (f dry st.fs) else st)

/-- The modify phase of `main` (lines 580-611). -/
def modifyPhase (yl : DocLoad) (yd : DocDump) (jl : DocLoad) (jd : DocDump)
    (cfg : Config) (dry : Bool) (fs : FS) : MState :=
  mpGo dry (ruleList yl yd jl jd cfg) ⟨fs, [], true⟩

/-- The names of the rules the orchestrator evaluates for a configuration,
in evaluation order. -/
def enabledRuleNames (cfg : Config) : List String :=
  (if cfg.hideDataSettings then ["hideDataSettings"] else []) ++
  (if cfg.applyBailianFix then ["applyBailianFix"] else []) ++
  (if cfg.hideUpdateUI then ["hideUpdateUI"] else []) ++
  ["electronBuilderYml", "packageJson"]

/-- Observable outcome of one non-restore run of `main`. -/
structure RunResult where
  fs : FS
  bmFiles : List String
  ruleResults : List (String × Bool)
  success : Bool
  restored : Bool
  buildRun : Bool
deriving DecidableEq

/-- A non-restore run of `main` (lines 553-662): backup phase, modify phase,
then either the (external) build phase gate or the restore-on-failure path.
`restored` records whether `restore_all` was invoked; `buildRun` whether the
external build steps are reached. -/
def mainRun (yl : DocLoad) (yd : DocDump) (jl : DocLoad) (jd : DocDump)
    (fw : String → Bool) (cfg : Config) (dry : Bool) (fs0 : FS) : RunResult :=
  let bf := backupPhase fw fs0
  let st := modifyPhase yl yd jl jd cfg dry bf.2
  if st.success then
    ⟨st.fs, bf.1.backed_up_files, st.results, true, false, cfg.autoBuild && !dry⟩
  else if dry then
    ⟨st.fs, bf.1.backed_up_files, st.results, false, false, false⟩
  else
    ⟨(restore_all fw bf.1 st.fs).1, bf.1.backed_up_files, st.results, false, true, false⟩

/-- The `--restore` invocation of `main` (lines 539-551): a freshly
constructed `BackupManager` (empty in-memory list) is asked to
`restore_all`. -/
def mainRestoreMode (fw : String → Bool) (fs : FS) : FS × Bool :=
  restore_all fw ⟨backupDir, []⟩ fs

/-! ## Substring occurrence -/

/-- `n` occurs contiguously inside `h`. -/
def occursIn (n h : List Char) : Prop := ∃ u v, h = u ++ n ++ v

theorem occursIn_cons {n s : List Char} (c : Char) :
    occursIn n s → occursIn n (c :: s) := by
  rintro ⟨u, v, rfl⟩; exact ⟨c :: u, v, rfl⟩

theorem occursIn_append_right {n s : List Char} (t : List Char) :
    occursIn n s → occursIn n (s ++ t) := by
  rintro ⟨u, v, rfl⟩; exact ⟨u, v ++ t, by simp⟩

theorem occursIn_trans {a b c : List Char} :
    occursIn a b → occursIn b c → occursIn a c := by
  rintro ⟨u1, v1, rfl⟩ ⟨u2, v2, rfl⟩
  exact ⟨u2 ++ u1, v1 ++ v2, by simp⟩

theorem occursIn_append_self_left {n : List Char} (t : List Char) :
    occursIn n (n ++ t) := ⟨[], t, rfl⟩

theorem occursIn_append_self_right {n : List Char} (t : List Char) :
    occursIn n (t ++ n) := ⟨t, [], by simp⟩

theorem begWith_iff (n : List Char) :
    ∀ h, begWith n h = true ↔ ∃ v, h = n ++ v := by
  induction n with
  | nil => intro h; simp [begWith]
  | cons a n ih =>
    intro h
    cases h with
    | nil => simp [begWith]
    | cons b h' =>
      simp only [begWith, Bool.and_eq_true, decide_eq_true_eq, ih h']
      constructor
      · rintro ⟨rfl, v, rfl⟩; exact ⟨v, rfl⟩
      · rintro ⟨v, hv⟩
        have h1 : b = a ∧ h' = n ++ v := by simpa using hv
        exact ⟨h1.1.symm, v, h1.2⟩

theorem containsB_iff (n : List Char) :
    ∀ h, containsB n h = true ↔ occursIn n h := by
  intro h
  induction h with
  | nil =>
    rw [show containsB n [] = begWith n [] from rfl, begWith_iff]
    constructor
    · rintro ⟨v, hv⟩; exact ⟨[], v, hv⟩
    · rintro ⟨u, v, huv⟩
      rcases List.append_eq_nil.mp huv.symm with ⟨h2, rfl⟩
      rcases List.append_eq_nil.mp h2 with ⟨rfl, rfl⟩
      exact ⟨[], rfl⟩
  | cons c s ih =>
    rw [show containsB n (c :: s) = (begWith n (c :: s) || containsB n s) from rfl,
      Bool.or_eq_true, begWith_iff, ih]
    constructor
    · rintro (⟨v, hv⟩ | ⟨u, v, huv⟩)
      · exact ⟨[], v, hv⟩
      · exact ⟨c :: u, v, by simp [huv]⟩
    · rintro ⟨u, v, huv⟩
      cases u with
      | nil => exact Or.inl ⟨v, by simpa using huv⟩
      | cons b u' =>
        have h1 : c = b ∧ s = u' ++ (n ++ v) := by simpa using huv
        exact Or.inr ⟨u', v, by rw [List.append_assoc]; exact h1.2⟩

/-! ## Matcher lemmas -/

theorem tryDrop_some {m : List Char → Option (List Char)} {s : List Char} :
    ∀ {i r}, tryDrop m s i = some r → ∃ j, j ≤ i ∧ m (s.drop j) = some r := by
  intro i
  induction i with
  | zero => intro r h; exact ⟨0, le_refl 0, by simpa [tryDrop] using h⟩
  | succ i ih =>
    intro r h
    rw [tryDrop] at h
    split at h
    · rename_i r' hm
      cases h
      exact ⟨i + 1, le_refl _, hm⟩
    · rcases ih h with ⟨j, hj, hmj⟩
      exact ⟨j, Nat.le_succ_of_le hj, hmj⟩

theorem matchF_sublen :
    ∀ {fuel : Nat} {p : Pattern} {s r : List Char},
      matchF fuel p s = some r → r.length ≤ s.length := by
  intro fuel
  induction fuel with
  | zero => intro p s r h; simp [matchF] at h
  | succ fuel ih =>
    intro p s r h
    match p, s with
    | [], s =>
      rw [matchF] at h
      cases h; exact le_refl _
    | .lit c :: ps, [] => simp [matchF] at h
    | .lit c :: ps, x :: s' =>
      rw [matchF] at h
      by_cases hx : x = c
      · rw [if_pos hx] at h
        exact Nat.le_succ_of_le (ih h)
      · rw [if_neg hx] at h; cases h
    | .wsStar :: ps, s =>
      rw [matchF] at h
      rcases tryDrop_some h with ⟨j, _, hmj⟩
      calc r.length ≤ (s.drop j).length := ih hmj
        _ ≤ s.length := by simp [List.length_drop]

theorem matchF_lit_lt :
    ∀ {fuel : Nat} {p : Pattern} {s r : List Char},
      hasLit p = true → matchF fuel p s = some r → r.length < s.length := by
  intro fuel
  induction fuel with
  | zero => intro p s r _ h; simp [matchF] at h
  | succ fuel ih =>
    intro p s r hl h
    match p, s with
    | [], s => simp [hasLit] at hl
    | .lit c :: ps, [] => simp [matchF] at h
    | .lit c :: ps, x :: s' =>
      rw [matchF] at h
      by_cases hx : x = c
      · rw [if_pos hx] at h
        exact Nat.lt_succ_of_le (matchF_sublen h)
      · rw [if_neg hx] at h; cases h
    | .wsStar :: ps, s =>
      rw [matchF] at h
      rcases tryDrop_some h with ⟨j, _, hmj⟩
      have hl' : hasLit ps = true := by simpa [hasLit] using hl
      calc r.length < (s.drop j).length := ih hl' hmj
        _ ≤ s.length := by simp [List.length_drop]

theorem rsearch_nil (p : Pattern) : rsearch p [] = (matchA p []).isSome := rfl

theorem rsearch_cons (p : Pattern) (c : Char) (s : List Char) :
    rsearch p (c :: s) = ((matchA p (c :: s)).isSome || rsearch p s) := rfl

theorem subGo_succ (p : Pattern) (r : List Char) (fuel : Nat) (s : List Char) :
    subGo p r (fuel + 1) s =
      match matchA p s with
      | some rest => if rest.length < s.length then r ++ subGo p r fuel rest else s
      | none =>
        match s with
        | [] => []
        | c :: s' => c :: subGo p r fuel s' := rfl

theorem rsearch_head_none {p : Pattern} {s : List Char}
    (h : rsearch p s = false) : matchA p s = none := by
  cases s with
  | nil =>
    rw [rsearch_nil] at h
    exact Option.not_isSome_iff_eq_none.mp (by simp [h])
  | cons c s' =>
    rw [rsearch_cons, Bool.or_eq_false_iff] at h
    exact Option.not_isSome_iff_eq_none.mp (by simp [h.1])

theorem rsearch_tail_false {p : Pattern} {c : Char} {s : List Char}
    (h : rsearch p (c :: s) = false) : rsearch p s = false := by
  rw [rsearch_cons, Bool.or_eq_false_iff] at h
  exact h.2

theorem subGo_nomatch {p : Pattern} {r : List Char} :
    ∀ {fuel : Nat} {s : List Char}, rsearch p s = false → subGo p r fuel s = s := by
  intro fuel
  induction fuel with
  | zero => intro s _; rfl
  | succ fuel ih =>
    intro s h
    rw [subGo_succ, rsearch_head_none h]
    cases s with
    | nil => rfl
    | cons c s' =>
      show c :: subGo p r fuel s' = c :: s'
      rw [ih (rsearch_tail_false h)]

theorem subGo_repl_occurs {p : Pattern} {r : List Char} (hl : hasLit p = true) :
    ∀ {fuel : Nat} {s : List Char}, s.length ≤ fuel → rsearch p s = true →
      occursIn r (subGo p r fuel s) := by
  intro fuel
  induction fuel with
  | zero =>
    intro s hlen hs
    have hnil : s = [] := List.length_eq_zero.mp (Nat.le_zero.mp hlen)
    subst hnil
    rw [rsearch] at hs
    rcases Option.isSome_iff_exists.mp hs with ⟨r', hr'⟩
    exact absurd (matchF_lit_lt hl hr') (by simp)
  | succ fuel ih =>
    intro s hlen hs
    rw [subGo_succ]
    cases hm : matchA p s with
    | some rest =>
      show occursIn r (if rest.length < s.length then r ++ subGo p r fuel rest else s)
      rw [if_pos (matchF_lit_lt hl hm)]
      exact occursIn_append_self_left _
    | none =>
      cases s with
      | nil =>
        rw [rsearch_nil, hm] at hs
        simp at hs
      | cons c s' =>
        rw [rsearch_cons, hm, Bool.or_eq_true] at hs
        simp only [Option.isSome_none, Bool.false_eq_true, false_or] at hs
        show occursIn r (c :: subGo p r fuel s')
        exact occursIn_cons c (ih (Nat.le_of_succ_le_succ hlen) hs)

theorem subAll_nomatch {p : Pattern} {r s : List Char}
    (h : rsearch p s = false) : subAll p r s = s :=
  subGo_nomatch h

theorem subAll_repl_occurs {p : Pattern} {r s : List Char}
    (hl : hasLit p = true) (h : rsearch p s = true) :
    occursIn r (subAll p r s) :=
  subGo_repl_occurs hl (le_refl _) h

theorem replAll_nomatch {old new s : List Char}
    (h : rsearch (old.map RAtom.lit) s = false) : replAll old new s = s :=
  subAll_nomatch h

theorem replAll_repl_occurs {old new s : List Char}
    (hl : hasLit (old.map RAtom.lit) = true)
    (h : rsearch (old.map RAtom.lit) s = true) :
    occursIn new (replAll old new s) :=
  subAll_repl_occurs hl h

/-! ## Claim C5: idempotence -/

/-- Content on which `modify_settings_page` is not idempotent: removing the
`,\s*\n\s*HardDrive` fragment re-exposes the DataSettings-import pattern,
which the next application then removes. -/
def c5cex : List Char :=
  chs "import DataSettings from \x27./DataSettings/DataSettings\x27,\nHardDrive\nQ"

set_option maxRecDepth 100000 in
/-- C5 (counterexample): the claim `apply(R, apply(R, F)) == apply(R, F)` for
every rule R and content F fails for `modify_settings_page`: on `c5cex` the
first application removes the HardDrive fragment, and the second application
removes the then re-exposed DataSettings import, changing the content
again. -/
theorem c5_counterexample :
    (settingsPageApply ((settingsPageApply c5cex).1)).1 ≠ (settingsPageApply c5cex).1 := by
  decide

/-- C5 (amended): for `modify_bailian_strategy` and each of the three
`hide_update_ui` sub-rules, applying the rule twice to any content yields the
content of a single application (the second application finds the
already-applied marker, or finds nothing to replace, and changes nothing);
`modify_settings_page` does not satisfy this for all contents. -/
theorem c5_idempotence_amended : ∀ c : List Char,
    (bailianApply (bailianApply c).1).1 = (bailianApply c).1 ∧
    updateBtnApply (updateBtnApply c) = updateBtnApply c ∧
    aboutApply (aboutApply c) = aboutApply c ∧
    storeApply (storeApply c) = storeApply c := by
  intro c
  refine ⟨?_, ?_, ?_, ?_⟩
  · by_cases h1 : containsB bailianMarker c = true
    · simp [bailianApply, h1]
    · replace h1 : containsB bailianMarker c = false := by
        simpa using h1
      by_cases h2 : rsearch bailianOldPat c = true
      · have hocc : occursIn bailianNew (subAll bailianOldPat bailianNew c) :=
          subAll_repl_occurs (by decide) h2
        have hmk : occursIn bailianMarker bailianNew :=
          (containsB_iff _ _).mp (by decide)
        have hc : containsB bailianMarker (subAll bailianOldPat bailianNew c) = true :=
          (containsB_iff _ _).mpr (occursIn_trans hmk hocc)
        simp [bailianApply, h1, h2, hc]
      · replace h2 : rsearch bailianOldPat c = false := by
          simpa using h2
        simp [bailianApply, h1, h2]
  · by_cases h1 : containsB updateBtnMarker c = true
    · simp [updateBtnApply, h1]
    · replace h1 : containsB updateBtnMarker c = false := by
        simpa using h1
      by_cases h2 : rsearch (updateBtnLit.map RAtom.lit) c = true
      · have hocc : occursIn updateBtnRepl (replAll updateBtnLit updateBtnRepl c) :=
          replAll_repl_occurs (by decide) h2
        have hmk : occursIn updateBtnMarker updateBtnRepl :=
          (containsB_iff _ _).mp (by decide)
        have hc : containsB updateBtnMarker (replAll updateBtnLit updateBtnRepl c) = true :=
          (containsB_iff _ _).mpr (occursIn_trans hmk hocc)
        simp [updateBtnApply, h1, hc]
      · replace h2 : rsearch (updateBtnLit.map RAtom.lit) c = false := by
          simpa using h2
        have he : replAll updateBtnLit updateBtnRepl c = c := replAll_nomatch h2
        simp [updateBtnApply, h1, he]
  · by_cases h1 : containsB aboutMarker c = true
    · simp [aboutApply, h1]
    · replace h1 : containsB aboutMarker c = false := by
        simpa using h1
      have hc : containsB aboutMarker (aboutReplaces c ++ '\n' :: aboutMarker) = true := by
        apply (containsB_iff _ _).mpr
        exact ⟨aboutReplaces c ++ ['\n'], [], by simp⟩
      simp [aboutApply, h1, hc]
  · by_cases h1 : containsB storeMarker c = true
    · simp [storeApply, h1]
    · replace h1 : containsB storeMarker c = false := by
        simpa using h1
      by_cases h2 : rsearch (storeLit.map RAtom.lit) c = true
      · have hc : containsB storeMarker (subAll (storeLit.map RAtom.lit) storeMarker c) = true :=
          (containsB_iff _ _).mpr (subAll_repl_occurs (by decide) h2)
        simp [storeApply, h1, hc]
      · replace h2 : rsearch (storeLit.map RAtom.lit) c = false := by
          simpa using h2
        have he : subAll (storeLit.map RAtom.lit) storeMarker c = c := subAll_nomatch h2
        simp [storeApply, h1, he]

/-! ## Step lemmas for the backup store -/

theorem backup_file_missing {fw : String → Bool} {bm : BM} {fs : FS} {p : String}
    (h : fs.read p = none) : backup_file fw bm fs p = (bm, fs, false) := by
  simp [backup_file, h]

theorem backup_file_some {fw : String → Bool} {bm : BM} {fs : FS} {p : String}
    {c : List Char} (h : fs.read p = some c)
    (hfw : fw (backupPath bm.backup_dir p) = false) :
    backup_file fw bm fs p =
      (⟨bm.backup_dir, bm.backed_up_files ++ [p]⟩,
        fs.write (backupPath bm.backup_dir p) c, true) := by
  simp [backup_file, h, hfw]

theorem backup_file_ioerr {fw : String → Bool} {bm : BM} {fs : FS} {p : String}
    {c : List Char} (h : fs.read p = some c)
    (hfw : fw (backupPath bm.backup_dir p) = true) :
    backup_file fw bm fs p = (bm, fs, false) := by
  simp [backup_file, h, hfw]

theorem restoreGo_nil (fw : String → Bool) (dir : String) (fs : FS) :
    restoreGo fw dir [] fs = (fs, true) := rfl

theorem restoreGo_cons_missing {fw : String → Bool} {dir : String} {p : String}
    {rest : List String} {fs : FS} (h : fs.read (backupPath dir p) = none) :
    restoreGo fw dir (p :: rest) fs = restoreGo fw dir rest fs := by
  simp [restoreGo, h]

theorem restoreGo_cons_some {fw : String → Bool} {dir : String} {p : String}
    {rest : List String} {fs : FS} {c : List Char}
    (h : fs.read (backupPath dir p) = some c) (hfw : fw p = false) :
    restoreGo fw dir (p :: rest) fs = restoreGo fw dir rest (fs.write p c) := by
  simp [restoreGo, h, hfw]

theorem restoreGo_cons_fail {fw : String → Bool} {dir : String} {p : String}
    {rest : List String} {fs : FS} {c : List Char}
    (h : fs.read (backupPath dir p) = some c) (hfw : fw p = true) :
    restoreGo fw dir (p :: rest) fs = (fs, false) := by
  simp [restoreGo, h, hfw]

/-! ## Claim C2: restore_all on an individual failure -/

/-- File system for the restore-failure scenario: two recorded files with
backups on disk. -/
def c2fs : FS :=
  ⟨[("a/f1", chs "x"), ("a/f2", chs "y"),
    (".customize-backup/f1.bak", chs "one"), (".customize-backup/f2.bak", chs "two")]⟩

/-- Backup manager state having recorded both files. -/
def c2bm : BM := ⟨".customize-backup", ["a/f1", "a/f2"]⟩

/-- Write failure on the first original path only. -/
def c2fw : String → Bool := fun p => decide (p = "a/f1")

/-- C2 (counterexample): when restoring `a/f1` fails, `restore_all` returns
false but does NOT continue with the remaining files: `a/f2` keeps its
modified content even though its backup is on disk and its own restore would
have succeeded. -/
theorem c2_counterexample :
    restore_all c2fw c2bm c2fs = (c2fs, false) ∧
    (restore_all c2fw c2bm c2fs).1.read "a/f2" = some (chs "y") ∧
    c2fs.read ".customize-backup/f2.bak" = some (chs "two") ∧
    c2fw "a/f2" = false := by
  decide

/-- C2 (amended): if restoring an individual file fails, `restore_all`
returns false and stops immediately — the file system is returned as it was
at the failure, and files recorded after the failing one are not
attempted. -/
theorem c2_stop_at_first_failure (fw : String → Bool) (bm : BM) (fs : FS)
    (p : String) (rest : List String)
    (hbm : bm.backed_up_files = p :: rest)
    (hread : (fs.read (backupPath bm.backup_dir p)).isSome = true)
    (hfw : fw p = true) :
    restore_all fw bm fs = (fs, false) := by
  rcases Option.isSome_iff_exists.mp hread with ⟨c, hc⟩
  rw [restore_all, hbm, restoreGo_cons_fail hc hfw]

/-- Witness for C2's amended theorem at the concrete scenario. -/
theorem c2_stop_witness :
    (c2bm.backed_up_files = "a/f1" :: ["a/f2"] ∧
     (c2fs.read (backupPath c2bm.backup_dir "a/f1")).isSome = true ∧
     c2fw "a/f1" = true) ∧
    restore_all c2fw c2bm c2fs = (c2fs, false) :=
  ⟨⟨by decide, by decide, by decide⟩,
    c2_stop_at_first_failure c2fw c2bm c2fs "a/f1" ["a/f2"]
      (by decide) (by decide) (by decide)⟩

/-! ## Claim C3: restore as a separate invocation -/

/-- On-disk state seen by a fresh `--restore` invocation: a backup exists in
the backup directory and the original file differs from it. -/
def c3fs : FS :=
  ⟨[("f.txt", chs "mod"), (".customize-backup/f.txt.bak", chs "orig")]⟩

/-- C3 (code behaviour): the `--restore` invocation constructs a fresh
`BackupManager` whose in-memory `backed_up_files` list is empty, so
`restore_all` restores nothing and reports success, for every file system —
in particular on-disk backups are ignored and `f.txt` keeps its modified
content. -/
theorem c3_restore_separate_invocation :
    (∀ (fw : String → Bool) (fs : FS), mainRestoreMode fw fs = (fs, true)) ∧
    c3fs.read ".customize-backup/f.txt.bak" = some (chs "orig") ∧
    (mainRestoreMode (fun _ => false) c3fs).1.read "f.txt" = some (chs "mod") := by
  refine ⟨fun fw fs => rfl, by decide, by decide⟩

/-! ## Claim C4: drift detection -/

/-- Drifted file system for `hide_update_ui`: all three target files exist
but contain neither an already-applied marker nor any precondition
fragment. -/
def c4fs : FS := ⟨[(btnPath, chs "X"), (aboutPath, chs "X"), (storePath, chs "X")]⟩

set_option maxRecDepth 100000 in
/-- C4 (counterexample): on content containing neither the already-applied
markers nor any precondition fragment, `hide_update_ui` reports success (its
substitutions silently no-op, and the AboutSettings step appends its marker
anyway), contradicting the claim that such drift is always recorded as a
failure. -/
theorem c4_counterexample :
    containsB updateBtnMarker (chs "X") = false ∧
    rsearch (updateBtnLit.map RAtom.lit) (chs "X") = false ∧
    containsB aboutMarker (chs "X") = false ∧
    rsearch (aboutOldCheckBtn.map RAtom.lit) (chs "X") = false ∧
    rsearch (aboutOldUpdateBlock.map RAtom.lit) (chs "X") = false ∧
    containsB storeMarker (chs "X") = false ∧
    rsearch (storeLit.map RAtom.lit) (chs "X") = false ∧
    (hide_update_ui false c4fs).2 = true := by
  decide

/-- C4 (amended): for `modify_settings_page` and `modify_bailian_strategy`
the claim holds: content that is left unchanged by every substitution while
still containing `DataSettings` (respectively: containing neither the
baseURL marker nor the buildUrl precondition pattern) yields a failure
outcome; `hide_update_ui`, by contrast, reports success on drifted content. -/
theorem c4_drift_amended :
    (∀ c : List Char, settingsPageSub c = c →
      containsB (chs "DataSettings") c = true → (settingsPageApply c).2 = false) ∧
    (∀ c : List Char, containsB bailianMarker c = false →
      rsearch bailianOldPat c = false → (bailianApply c).2 = false) := by
  constructor
  · intro c h1 h2
    simp [settingsPageApply, h1, h2]
  · intro c h1 h2
    simp [bailianApply, h1, h2]

set_option maxRecDepth 100000 in
/-- Witness for C4's amended theorem at concrete drifted contents. -/
theorem c4_drift_witness :
    (settingsPageSub (chs "DataSettings here") = chs "DataSettings here" ∧
     containsB (chs "DataSettings") (chs "DataSettings here") = true ∧
     containsB bailianMarker (chs "Z") = false ∧
     rsearch bailianOldPat (chs "Z") = false) ∧
    (settingsPageApply (chs "DataSettings here")).2 = false ∧
    (bailianApply (chs "Z")).2 = false :=
  ⟨⟨by decide, by decide, by decide, by decide⟩,
    c4_drift_amended.1 (chs "DataSettings here") (by decide) (by decide),
    c4_drift_amended.2 (chs "Z") (by decide) (by decide)⟩

/-! ## Claim C9: backup locations derived from base names alone -/

/-- C9: for two distinct target paths with the same base name, the second
backup overwrites the first (they share one backup location), and a
subsequent `restore_all` writes the later file's saved content over both
original paths. -/
theorem c9_basename_collision (dir p1 p2 : String) (c1 c2 : List Char) (fs : FS)
    (hne : p1 ≠ p2)
    (hbase : basenameOf p1 = basenameOf p2)
    (h1 : fs.read p1 = some c1)
    (h2 : fs.read p2 = some c2)
    (hbp1 : backupPath dir p1 ≠ p1)
    (hbp2 : backupPath dir p1 ≠ p2) :
    ((backup_file (fun _ => false)
        (backup_file (fun _ => false) ⟨dir, []⟩ fs p1).1
        (backup_file (fun _ => false) ⟨dir, []⟩ fs p1).2.1 p2).2.1).read
          (backupPath dir p1) = some c2 ∧
    (restore_all (fun _ => false)
        (backup_file (fun _ => false)
          (backup_file (fun _ => false) ⟨dir, []⟩ fs p1).1
          (backup_file (fun _ => false) ⟨dir, []⟩ fs p1).2.1 p2).1
        (backup_file (fun _ => false)
          (backup_file (fun _ => false) ⟨dir, []⟩ fs p1).1
          (backup_file (fun _ => false) ⟨dir, []⟩ fs p1).2.1 p2).2.1).1.read p1
      = some c2 ∧
    (restore_all (fun _ => false)
        (backup_file (fun _ => false)
          (backup_file (fun _ => false) ⟨dir, []⟩ fs p1).1
          (backup_file (fun _ => false) ⟨dir, []⟩ fs p1).2.1 p2).1
        (backup_file (fun _ => false)
          (backup_file (fun _ => false) ⟨dir, []⟩ fs p1).1
          (backup_file (fun _ => false) ⟨dir, []⟩ fs p1).2.1 p2).2.1).1.read p2
      = some c2 := by
  have hbp : backupPath dir p2 = backupPath dir p1 := by
    rw [backupPath, backupPath, hbase]
  have hr1 : backup_file (fun _ => false) ⟨dir, []⟩ fs p1 =
      (⟨dir, [p1]⟩, fs.write (backupPath dir p1) c1, true) := by
    simpa using @backup_file_some (fun _ => false) ⟨dir, []⟩ fs p1 c1 h1 rfl
  have h2' : (fs.write (backupPath dir p1) c1).read p2 = some c2 := by
    rw [FS.read_write_ne _ _ _ _ hbp2]; exact h2
  have hr2 : backup_file (fun _ => false) ⟨dir, [p1]⟩
      (fs.write (backupPath dir p1) c1) p2 =
      (⟨dir, [p1, p2]⟩,
        (fs.write (backupPath dir p1) c1).write (backupPath dir p1) c2, true) := by
    have h0 := @backup_file_some (fun _ => false) ⟨dir, [p1]⟩
        (fs.write (backupPath dir p1) c1) p2 c2 h2' rfl
    simpa [hbp] using h0
  rw [hr1]
  simp only []
  rw [hr2]
  simp only []
  set fs2 : FS := (fs.write (backupPath dir p1) c1).write (backupPath dir p1) c2 with hfs2
  have hread2 : fs2.read (backupPath dir p1) = some c2 := FS.read_write_self _ _ _
  refine ⟨hread2, ?_⟩
  have hstep1 : restore_all (fun _ => false) ⟨dir, [p1, p2]⟩ fs2 =
      restoreGo (fun _ => false) dir [p2] (fs2.write p1 c2) := by
    rw [restore_all]
    exact restoreGo_cons_some hread2 rfl
  have hread3 : (fs2.write p1 c2).read (backupPath dir p2) = some c2 := by
    rw [hbp, FS.read_write_ne _ _ _ _ (Ne.symm hbp1)]
    exact hread2
  have hstep2 : restoreGo (fun _ => false) dir [p2] (fs2.write p1 c2) =
      (((fs2.write p1 c2).write p2 c2), true) := by
    rw [restoreGo_cons_some hread3 rfl, restoreGo_nil]
  rw [hstep1, hstep2]
  constructor
  · rw [FS.read_write_ne _ _ _ _ (Ne.symm hne), FS.read_write_self]
  · rw [FS.read_write_self]

/-- Witness for C9 at two concrete paths sharing a base name. -/
theorem c9_witness :
    (("a/f.txt" : String) ≠ "b/f.txt" ∧
     basenameOf "a/f.txt" = basenameOf "b/f.txt" ∧
     (⟨[("a/f.txt", chs "A"), ("b/f.txt", chs "B")]⟩ : FS).read "a/f.txt" = some (chs "A") ∧
     (⟨[("a/f.txt", chs "A"), ("b/f.txt", chs "B")]⟩ : FS).read "b/f.txt" = some (chs "B") ∧
     backupPath ".customize-backup" "a/f.txt" ≠ "a/f.txt" ∧
     backupPath ".customize-backup" "a/f.txt" ≠ "b/f.txt") ∧
    ((backup_file (fun _ => false)
        (backup_file (fun _ => false) ⟨".customize-backup", []⟩
          ⟨[("a/f.txt", chs "A"), ("b/f.txt", chs "B")]⟩ "a/f.txt").1
        (backup_file (fun _ => false) ⟨".customize-backup", []⟩
          ⟨[("a/f.txt", chs "A"), ("b/f.txt", chs "B")]⟩ "a/f.txt").2.1 "b/f.txt").2.1).read
          (backupPath ".customize-backup" "a/f.txt") = some (chs "B") :=
  ⟨⟨by decide, by decide, by decide, by decide, by decide, by decide⟩,
    (c9_basename_collision ".customize-backup" "a/f.txt" "b/f.txt" (chs "A") (chs "B")
      ⟨[("a/f.txt", chs "A"), ("b/f.txt", chs "B")]⟩
      (by decide) (by decide) (by decide) (by decide) (by decide) (by decide)).1⟩

/-! ## Claim C8: the baseURL end-to-end scenario -/

/-- Modelled from the spec: runtime behaviour of the TypeScript `buildUrl`
body inserted by the baseURL rule (the inserted code is TypeScript, outside
the Python source): a single trailing slash is stripped from a provided base
URL. -/
def stripSlash (b : List Char) : List Char :=
  if b.getLast? = some '/' then b.dropLast else b

/-- Modelled from the spec: the inserted `buildUrl` accepts an optional base
URL, prefixes the fixed rerank route with it (after stripping one trailing
slash), and falls back to the original literal when the argument is absent
(or empty, which is falsy in TypeScript). -/
def buildUrlSem : Option (List Char) → List Char
  | some b =>
    if b.isEmpty then
      chs "https://dashscope.aliyuncs.com/api/v1/services/rerank/text-rerank/text-rerank"
    else stripSlash b ++ chs "/api/v1/services/rerank/text-rerank/text-rerank"
  | none =>
    chs "https://dashscope.aliyuncs.com/api/v1/services/rerank/text-rerank/text-rerank"

/-- C8: on content containing the original `buildUrl` method (and not yet
the baseURL marker), one application of the baseURL rule succeeds and yields
content containing `buildUrl(baseURL?: string)` — the full replacement text,
whose modelled semantics strips a single trailing slash from a provided base
URL and falls back to the original literal when absent — and a second
application leaves the content unchanged. -/
theorem c8_baseurl_end_to_end (c : List Char)
    (h1 : containsB bailianMarker c = false)
    (h2 : rsearch bailianOldPat c = true) :
    (bailianApply c).2 = true ∧
    containsB bailianMarker (bailianApply c).1 = true ∧
    containsB bailianNew (bailianApply c).1 = true ∧
    bailianApply (bailianApply c).1 = ((bailianApply c).1, true) ∧
    buildUrlSem none =
      chs "https://dashscope.aliyuncs.com/api/v1/services/rerank/text-rerank/text-rerank" ∧
    (∀ b : List Char, b ≠ [] →
      buildUrlSem (some b) =
        stripSlash b ++ chs "/api/v1/services/rerank/text-rerank/text-rerank") ∧
    (∀ b : List Char, b.getLast? = some '/' → stripSlash b = b.dropLast) := by
  have happ : bailianApply c = (subAll bailianOldPat bailianNew c, true) := by
    simp [bailianApply, h1, h2]
  have hocc : occursIn bailianNew (subAll bailianOldPat bailianNew c) :=
    subAll_repl_occurs (by decide) h2
  have hcnew : containsB bailianNew (subAll bailianOldPat bailianNew c) = true :=
    (containsB_iff _ _).mpr hocc
  have hmk : containsB bailianMarker (subAll bailianOldPat bailianNew c) = true :=
    (containsB_iff _ _).mpr (occursIn_trans ((containsB_iff _ _).mp (by decide)) hocc)
  refine ⟨by rw [happ], ?_, ?_, ?_, rfl, ?_, ?_⟩
  · rw [happ]; exact hmk
  · rw [happ]; exact hcnew
  · rw [happ]
    simp [bailianApply, hmk]
  · intro b hb
    cases b with
    | nil => exact absurd rfl hb
    | cons x xs => simp [buildUrlSem]
  · intro b hl
    simp [stripSlash, hl]

/-- Content of a BailianStrategy.ts file in the expected original shape. -/
def c8sample : List Char :=
  chs ("export class X \x7b\n  buildUrl(): string \x7b\n    return \x27https://dashscope.aliyuncs.com/api/v1/services/rerank/text-rerank/text-rerank\x27\n  \x7d\n\x7d\n")

set_option maxRecDepth 100000 in
/-- Witness for C8 at a concrete file in the original shape. -/
theorem c8_witness :
    (containsB bailianMarker c8sample = false ∧
     rsearch bailianOldPat c8sample = true) ∧
    (bailianApply c8sample).2 = true :=
  ⟨⟨by decide, by decide⟩,
    (c8_baseurl_end_to_end c8sample (by decide) (by decide)).1⟩

/-! ## mainRun projection lemmas -/

theorem mainRun_ruleResults (yl : DocLoad) (yd : DocDump) (jl : DocLoad) (jd : DocDump)
    (fw : String → Bool) (cfg : Config) (dry : Bool) (fs0 : FS) :
    (mainRun yl yd jl jd fw cfg dry fs0).ruleResults =
      (modifyPhase yl yd jl jd cfg dry (backupPhase fw fs0).2).results := by
  rw [mainRun]
  split
  · rfl
  · split
    · rfl
    · rfl

theorem mainRun_bmFiles (yl : DocLoad) (yd : DocDump) (jl : DocLoad) (jd : DocDump)
    (fw : String → Bool) (cfg : Config) (dry : Bool) (fs0 : FS) :
    (mainRun yl yd jl jd fw cfg dry fs0).bmFiles =
      (backupPhase fw fs0).1.backed_up_files := by
  rw [mainRun]
  split
  · rfl
  · split
    · rfl
    · rfl

theorem mainRun_success_eq (yl : DocLoad) (yd : DocDump) (jl : DocLoad) (jd : DocDump)
    (fw : String → Bool) (cfg : Config) (dry : Bool) (fs0 : FS) :
    (mainRun yl yd jl jd fw cfg dry fs0).success =
      (modifyPhase yl yd jl jd cfg dry (backupPhase fw fs0).2).success := by
  rw [mainRun]
  split
  · rename_i hs; exact hs.symm
  · rename_i hs
    have hs' : (modifyPhase yl yd jl jd cfg dry (backupPhase fw fs0).2).success = false := by
      simpa using hs
    split
    · exact hs'.symm
    · exact hs'.symm

theorem mainRun_buildRun (yl : DocLoad) (yd : DocDump) (jl : DocLoad) (jd : DocDump)
    (fw : String → Bool) (cfg : Config) (dry : Bool) (fs0 : FS) :
    (mainRun yl yd jl jd fw cfg dry fs0).buildRun =
      ((modifyPhase yl yd jl jd cfg dry (backupPhase fw fs0).2).success &&
        (cfg.autoBuild && !dry)) := by
  rw [mainRun]
  split
  · rename_i hs; simp [hs]
  · rename_i hs
    have hs' : (modifyPhase yl yd jl jd cfg dry (backupPhase fw fs0).2).success = false := by
      simpa using hs
    split
    · simp [hs']
    · simp [hs']

theorem mainRun_restored (yl : DocLoad) (yd : DocDump) (jl : DocLoad) (jd : DocDump)
    (fw : String → Bool) (cfg : Config) (dry : Bool) (fs0 : FS) :
    (mainRun yl yd jl jd fw cfg dry fs0).restored =
      (!(modifyPhase yl yd jl jd cfg dry (backupPhase fw fs0).2).success && !dry) := by
  rw [mainRun]
  split
  · rename_i hs; simp [hs]
  · rename_i hs
    have hs' : (modifyPhase yl yd jl jd cfg dry (backupPhase fw fs0).2).success = false := by
      simpa using hs
    split
    · rename_i hd; simp [hs', hd]
    · rename_i hd
      have hd' : dry = false := by simpa using hd
      subst hd'
      simp [hs']

/-! ## modifyPhase bookkeeping lemmas -/

theorem modifyPhase_success_eq (yl : DocLoad) (yd : DocDump) (jl : DocLoad) (jd : DocDump)
    (cfg : Config) (dry : Bool) (fs : FS) :
    (modifyPhase yl yd jl jd cfg dry fs).success =
      (modifyPhase yl yd jl jd cfg dry fs).results.all (fun x => x.2) := by
  have hstep : ∀ (n : String) (st : MState) (r : FS × Bool),
      st.success = st.results.all (fun x => x.2) →
      (runStep n st r).success = (runStep n st r).results.all (fun x => x.2) := by
    intro n st r h
    simp [runStep, List.all_append, h]
  have hcond : ∀ (b : Bool) (n : String) (st : MState) (r : FS × Bool),
      st.success = st.results.all (fun x => x.2) →
      (if b then runStep n st r else st).success =
        (if b then runStep n st r else st).results.all (fun x => x.2) := by
    intro b n st r h
    cases b
    · simpa using h
    · simpa using hstep n st r h
  simp only [modifyPhase, ruleList, mpGo]
  apply hstep
  apply hstep
  apply hcond
  apply hcond
  apply hcond
  rfl

theorem modifyPhase_names (yl : DocLoad) (yd : DocDump) (jl : DocLoad) (jd : DocDump)
    (cfg : Config) (dry : Bool) (fs : FS) :
    (modifyPhase yl yd jl jd cfg dry fs).results.map (fun x => x.1) =
      enabledRuleNames cfg := by
  simp only [modifyPhase, ruleList, enabledRuleNames]
  by_cases e1 : cfg.hideDataSettings <;> by_cases e2 : cfg.applyBailianFix <;>
    by_cases e3 : cfg.hideUpdateUI <;>
    simp [e1, e2, e3, mpGo, runStep]

/-! ## Claim C1: failure semantics of the orchestrator -/

/-- C1: whenever some evaluated rule failed in a run, the run's overall
result is failed, no build step runs, `restore_all` is invoked exactly when
not in dry-run mode, and the recorded rule outcomes still cover every
enabled rule in order (no short-circuit at the first failure). -/
theorem c1_failure_semantics (yl : DocLoad) (yd : DocDump) (jl : DocLoad) (jd : DocDump)
    (fw : String → Bool) (cfg : Config) (dry : Bool) (fs0 : FS)
    (h : (mainRun yl yd jl jd fw cfg dry fs0).ruleResults.any (fun x => !x.2) = true) :
    (mainRun yl yd jl jd fw cfg dry fs0).success = false ∧
    (mainRun yl yd jl jd fw cfg dry fs0).buildRun = false ∧
    (mainRun yl yd jl jd fw cfg dry fs0).restored = !dry ∧
    (mainRun yl yd jl jd fw cfg dry fs0).ruleResults.map (fun x => x.1) =
      enabledRuleNames cfg := by
  have hres := mainRun_ruleResults yl yd jl jd fw cfg dry fs0
  have hsucc0 : (modifyPhase yl yd jl jd cfg dry (backupPhase fw fs0).2).success = false := by
    rw [modifyPhase_success_eq]
    rw [hres] at h
    rcases List.any_eq_true.mp h with ⟨x, hx, hxf⟩
    cases hallv : (modifyPhase yl yd jl jd cfg dry (backupPhase fw fs0).2).results.all
        (fun y => y.2)
    · rfl
    · exfalso
      have hxt := List.all_eq_true.mp hallv x hx
      rw [Bool.not_eq_true'] at hxf
      rw [hxt] at hxf
      cases hxf
  refine ⟨?_, ?_, ?_, ?_⟩
  · rw [mainRun_success_eq, hsucc0]
  · rw [mainRun_buildRun, hsucc0]
    rfl
  · rw [mainRun_restored, hsucc0]
    rfl
  · rw [hres]
    exact modifyPhase_names yl yd jl jd cfg dry (backupPhase fw fs0).2

/-- Configuration used by the C1 witness: all rules enabled. -/
def c1cfg : Config := ⟨true, true, true, true, "i", "n", "p", "v"⟩

set_option maxRecDepth 100000 in
/-- Witness for C1: on an empty tree every rule fails, and the orchestrator
records overall failure without reaching the build phase. -/
theorem c1_witness :
    ((mainRun (fun _ => none) (fun _ => []) (fun _ => none) (fun _ => [])
        (fun _ => false) c1cfg false ⟨[]⟩).ruleResults.any (fun x => !x.2) = true) ∧
    (mainRun (fun _ => none) (fun _ => []) (fun _ => none) (fun _ => [])
        (fun _ => false) c1cfg false ⟨[]⟩).success = false :=
  ⟨by decide,
    (c1_failure_semantics (fun _ => none) (fun _ => []) (fun _ => none) (fun _ => [])
      (fun _ => false) c1cfg false ⟨[]⟩ (by decide)).1⟩

/-! ## Frame lemmas for the individual rules -/

theorem FS.read_write (fs : FS) (p q : String) (c : List Char) :
    (fs.write p c).read q = if p = q then some c else fs.read q := by
  simp [FS.read, FS.write, lookupF]

theorem msp_dry (fs : FS) (p : String) : (modify_settings_page true fs p).1 = fs := by
  cases h : fs.read p <;> simp [modify_settings_page, h, apply_ite]


theorem msp_frame (d : Bool) (fs : FS) (p q : String) (hq : ¬ p = q) :
    (modify_settings_page d fs p).1.read q = fs.read q := by
  cases h : fs.read p
  · simp [modify_settings_page, h]
  · simp only [modify_settings_page, h]
    split
    · split <;> rfl
    · split
      · rfl
      · exact FS.read_write_ne fs p q _ hq

theorem msp_out (d1 d2 : Bool) (fs1 fs2 : FS) (p : String)
    (h : fs1.read p = fs2.read p) :
    (modify_settings_page d1 fs1 p).2 = (modify_settings_page d2 fs2 p).2 := by
  rw [modify_settings_page, modify_settings_page, h]
  cases h2 : fs2.read p
  · rfl
  · rename_i c
    simp only []
    by_cases hc : settingsPageSub c = c
    · simp only [if_pos hc]
      by_cases hd : containsB (chs "DataSettings") c = true
      · simp only [if_pos hd]
      · simp only [if_neg hd]
    · simp only [if_neg hc]
      cases d1 <;> cases d2 <;> rfl

theorem msp_chg (fs : FS) (p q : String)
    (hne : (modify_settings_page false fs p).1.read q ≠ fs.read q) :
    (fs.read q).isSome = true ∧ q = p := by
  cases h : fs.read p
  · simp [modify_settings_page, h] at hne
  · rename_i c
    simp only [modify_settings_page, h] at hne
    by_cases hc : settingsPageSub c = c
    · rw [if_pos hc] at hne
      by_cases hd : containsB (chs "DataSettings") c = true
      · rw [if_pos hd] at hne
        simp at hne
      · rw [if_neg hd] at hne
        simp at hne
    · rw [if_neg hc, if_neg (by decide : ¬ ((false : Bool) = true))] at hne
      by_cases hpq : p = q
      · subst hpq
        exact ⟨by rw [h]; rfl, rfl⟩
      · exact absurd (FS.read_write_ne fs p q _ hpq) hne

theorem mbs_dry (fs : FS) (p : String) : (modify_bailian_strategy true fs p).1 = fs := by
  cases h : fs.read p
  · simp [modify_bailian_strategy, h]
  · simp only [modify_bailian_strategy, h]
    split
    · rfl
    · split
      · rfl
      · rfl

theorem mbs_frame (d : Bool) (fs : FS) (p q : String) (hq : ¬ p = q) :
    (modify_bailian_strategy d fs p).1.read q = fs.read q := by
  cases h : fs.read p
  · simp [modify_bailian_strategy, h]
  · simp only [modify_bailian_strategy, h]
    split
    · rfl
    · split
      · split
        · rfl
        · exact FS.read_write_ne fs p q _ hq
      · rfl

theorem mbs_out (d1 d2 : Bool) (fs1 fs2 : FS) (p : String)
    (h : fs1.read p = fs2.read p) :
    (modify_bailian_strategy d1 fs1 p).2 = (modify_bailian_strategy d2 fs2 p).2 := by
  rw [modify_bailian_strategy, modify_bailian_strategy, h]
  cases h2 : fs2.read p
  · rfl
  · rename_i c
    simp only []
    by_cases hm : containsB bailianMarker c = true
    · simp only [if_pos hm]
    · simp only [if_neg hm]
      by_cases hs : rsearch bailianOldPat c = true
      · simp only [if_pos hs]
        cases d1 <;> cases d2 <;> rfl
      · simp only [if_neg hs]

theorem mbs_chg (fs : FS) (p q : String)
    (hne : (modify_bailian_strategy false fs p).1.read q ≠ fs.read q) :
    (fs.read q).isSome = true ∧ q = p := by
  cases h : fs.read p
  · simp [modify_bailian_strategy, h] at hne
  · rename_i c
    simp only [modify_bailian_strategy, h] at hne
    by_cases hm : containsB bailianMarker c = true
    · rw [if_pos hm] at hne
      simp at hne
    · rw [if_neg hm] at hne
      by_cases hs : rsearch bailianOldPat c = true
      · rw [if_pos hs, if_neg (by decide : ¬ ((false : Bool) = true))] at hne
        by_cases hpq : p = q
        · subst hpq
          exact ⟨by rw [h]; rfl, rfl⟩
        · exact absurd (FS.read_write_ne fs p q _ hpq) hne
      · rw [if_neg hs] at hne
        simp at hne

theorem hbtn_dry (fs : FS) : (hideUpdateBtnStep true fs).1 = fs := by
  cases h : fs.read btnPath
  · simp [hideUpdateBtnStep, h]
  · simp only [hideUpdateBtnStep, h]
    split <;> rfl

theorem hbtn_frame (d : Bool) (fs : FS) (q : String) (hq : ¬ btnPath = q) :
    (hideUpdateBtnStep d fs).1.read q = fs.read q := by
  cases h : fs.read btnPath
  · simp [hideUpdateBtnStep, h]
  · simp only [hideUpdateBtnStep, h]
    split
    · rfl
    · split
      · rfl
      · exact FS.read_write_ne fs btnPath q _ hq

theorem hbtn_out (d1 d2 : Bool) (fs1 fs2 : FS)
    (h : fs1.read btnPath = fs2.read btnPath) :
    (hideUpdateBtnStep d1 fs1).2 = (hideUpdateBtnStep d2 fs2).2 := by
  rw [hideUpdateBtnStep, hideUpdateBtnStep, h]
  cases h2 : fs2.read btnPath
  · rfl
  · rename_i c
    simp only []
    by_cases hm : containsB updateBtnMarker c = true
    · simp only [if_pos hm]
    · simp only [if_neg hm]
      cases d1 <;> cases d2 <;> rfl

theorem hbtn_chg (fs : FS) (q : String)
    (hne : (hideUpdateBtnStep false fs).1.read q ≠ fs.read q) :
    (fs.read q).isSome = true ∧ q = btnPath := by
  cases h : fs.read btnPath
  · simp [hideUpdateBtnStep, h] at hne
  · rename_i c
    simp only [hideUpdateBtnStep, h] at hne
    by_cases hm : containsB updateBtnMarker c = true
    · rw [if_pos hm] at hne
      simp at hne
    · rw [if_neg hm, if_neg (by decide : ¬ ((false : Bool) = true))] at hne
      by_cases hpq : btnPath = q
      · rcases hpq with rfl
        exact ⟨by rw [h]; rfl, rfl⟩
      · exact absurd (FS.read_write_ne fs btnPath q _ hpq) hne

theorem habt_dry (fs : FS) : (hideAboutStep true fs).1 = fs := by
  cases h : fs.read aboutPath
  · simp [hideAboutStep, h]
  · simp only [hideAboutStep, h]
    split <;> rfl

theorem habt_frame (d : Bool) (fs : FS) (q : String) (hq : ¬ aboutPath = q) :
    (hideAboutStep d fs).1.read q = fs.read q := by
  cases h : fs.read aboutPath
  · simp [hideAboutStep, h]
  · simp only [hideAboutStep, h]
    split
    · rfl
    · split
      · rfl
      · exact FS.read_write_ne fs aboutPath q _ hq

theorem habt_out (d1 d2 : Bool) (fs1 fs2 : FS)
    (h : fs1.read aboutPath = fs2.read aboutPath) :
    (hideAboutStep d1 fs1).2 = (hideAboutStep d2 fs2).2 := by
  rw [hideAboutStep, hideAboutStep, h]
  cases h2 : fs2.read aboutPath
  · rfl
  · rename_i c
    simp only []
    by_cases hm : containsB aboutMarker c = true
    · simp only [if_pos hm]
    · simp only [if_neg hm]
      cases d1 <;> cases d2 <;> rfl

theorem habt_chg (fs : FS) (q : String)
    (hne : (hideAboutStep false fs).1.read q ≠ fs.read q) :
    (fs.read q).isSome = true ∧ q = aboutPath := by
  cases h : fs.read aboutPath
  · simp [hideAboutStep, h] at hne
  · rename_i c
    simp only [hideAboutStep, h] at hne
    by_cases hm : containsB aboutMarker c = true
    · rw [if_pos hm] at hne
      simp at hne
    · rw [if_neg hm, if_neg (by decide : ¬ ((false : Bool) = true))] at hne
      by_cases hpq : aboutPath = q
      · rcases hpq with rfl
        exact ⟨by rw [h]; rfl, rfl⟩
      · exact absurd (FS.read_write_ne fs aboutPath q _ hpq) hne

theorem hsto_dry (fs : FS) : (hideStoreStep true fs).1 = fs := by
  cases h : fs.read storePath
  · simp [hideStoreStep, h]
  · simp only [hideStoreStep, h]
    split <;> rfl

theorem hsto_frame (d : Bool) (fs : FS) (q : String) (hq : ¬ storePath = q) :
    (hideStoreStep d fs).1.read q = fs.read q := by
  cases h : fs.read storePath
  · simp [hideStoreStep, h]
  · simp only [hideStoreStep, h]
    split
    · rfl
    · split
      · rfl
      · exact FS.read_write_ne fs storePath q _ hq

theorem hsto_out (d1 d2 : Bool) (fs1 fs2 : FS)
    (h : fs1.read storePath = fs2.read storePath) :
    (hideStoreStep d1 fs1).2 = (hideStoreStep d2 fs2).2 := by
  rw [hideStoreStep, hideStoreStep, h]
  cases h2 : fs2.read storePath
  · rfl
  · rename_i c
    simp only []
    by_cases hm : containsB storeMarker c = true
    · simp only [if_pos hm]
    · simp only [if_neg hm]
      cases d1 <;> cases d2 <;> rfl

theorem hsto_chg (fs : FS) (q : String)
    (hne : (hideStoreStep false fs).1.read q ≠ fs.read q) :
    (fs.read q).isSome = true ∧ q = storePath := by
  cases h : fs.read storePath
  · simp [hideStoreStep, h] at hne
  · rename_i c
    simp only [hideStoreStep, h] at hne
    by_cases hm : containsB storeMarker c = true
    · rw [if_pos hm] at hne
      simp at hne
    · rw [if_neg hm, if_neg (by decide : ¬ ((false : Bool) = true))] at hne
      by_cases hpq : storePath = q
      · rcases hpq with rfl
        exact ⟨by rw [h]; rfl, rfl⟩
      · exact absurd (FS.read_write_ne fs storePath q _ hpq) hne

theorem yml_dry (yl : DocLoad) (yd : DocDump) (fs : FS) (p a b : String) :
    (modify_electron_builder_yml yl yd true fs p a b).1 = fs := by
  cases h : fs.read p
  · simp [modify_electron_builder_yml, h]
  · rename_i c
    simp only [modify_electron_builder_yml, h]
    cases h2 : yl c
    · rfl
    · rfl

theorem yml_frame (yl : DocLoad) (yd : DocDump) (d : Bool) (fs : FS) (p a b q : String)
    (hq : ¬ p = q) :
    (modify_electron_builder_yml yl yd d fs p a b).1.read q = fs.read q := by
  cases h : fs.read p
  · simp [modify_electron_builder_yml, h]
  · rename_i c
    simp only [modify_electron_builder_yml, h]
    cases h2 : yl c
    · rfl
    · simp only []
      split
      · rfl
      · exact FS.read_write_ne fs p q _ hq

theorem yml_out (yl : DocLoad) (yd : DocDump) (d1 d2 : Bool) (fs1 fs2 : FS)
    (p a b : String) (h : fs1.read p = fs2.read p) :
    (modify_electron_builder_yml yl yd d1 fs1 p a b).2 =
      (modify_electron_builder_yml yl yd d2 fs2 p a b).2 := by
  rw [modify_electron_builder_yml, modify_electron_builder_yml, h]
  cases h2 : fs2.read p
  · rfl
  · rename_i c
    simp only []
    cases h3 : yl c
    · rfl
    · simp only []
      cases d1 <;> cases d2 <;> rfl

theorem yml_chg (yl : DocLoad) (yd : DocDump) (fs : FS) (p a b q : String)
    (hne : (modify_electron_builder_yml yl yd false fs p a b).1.read q ≠ fs.read q) :
    (fs.read q).isSome = true ∧ q = p := by
  cases h : fs.read p
  · simp [modify_electron_builder_yml, h] at hne
  · rename_i c
    simp only [modify_electron_builder_yml, h] at hne
    cases h2 : yl c
    · rw [h2] at hne
      simp at hne
    · rename_i kvs
      rw [h2] at hne
      simp only [] at hne
      rw [if_neg (by decide : ¬ ((false : Bool) = true))] at hne
      by_cases hpq : p = q
      · subst hpq
        exact ⟨by rw [h]; rfl, rfl⟩
      · exact absurd (FS.read_write_ne fs p q _ hpq) hne

theorem pkg_dry (jl : DocLoad) (jd : DocDump) (fs : FS) (p a b v : String) :
    (modify_package_json jl jd true fs p a b v).1 = fs := by
  cases h : fs.read p
  · simp [modify_package_json, h]
  · rename_i c
    simp only [modify_package_json, h]
    cases h2 : jl c
    · rfl
    · rfl

theorem pkg_frame (jl : DocLoad) (jd : DocDump) (d : Bool) (fs : FS) (p a b v q : String)
    (hq : ¬ p = q) :
    (modify_package_json jl jd d fs p a b v).1.read q = fs.read q := by
  cases h : fs.read p
  · simp [modify_package_json, h]
  · rename_i c
    simp only [modify_package_json, h]
    cases h2 : jl c
    · rfl
    · simp only []
      split
      · rfl
      · exact FS.read_write_ne fs p q _ hq

theorem pkg_out (jl : DocLoad) (jd : DocDump) (d1 d2 : Bool) (fs1 fs2 : FS)
    (p a b v : String) (h : fs1.read p = fs2.read p) :
    (modify_package_json jl jd d1 fs1 p a b v).2 =
      (modify_package_json jl jd d2 fs2 p a b v).2 := by
  rw [modify_package_json, modify_package_json, h]
  cases h2 : fs2.read p
  · rfl
  · rename_i c
    simp only []
    cases h3 : jl c
    · rfl
    · simp only []
      cases d1 <;> cases d2 <;> rfl

theorem pkg_chg (jl : DocLoad) (jd : DocDump) (fs : FS) (p a b v q : String)
    (hne : (modify_package_json jl jd false fs p a b v).1.read q ≠ fs.read q) :
    (fs.read q).isSome = true ∧ q = p := by
  cases h : fs.read p
  · simp [modify_package_json, h] at hne
  · rename_i c
    simp only [modify_package_json, h] at hne
    cases h2 : jl c
    · rw [h2] at hne
      simp at hne
    · rename_i kvs
      rw [h2] at hne
      simp only [] at hne
      rw [if_neg (by decide : ¬ ((false : Bool) = true))] at hne
      by_cases hpq : p = q
      · subst hpq
        exact ⟨by rw [h]; rfl, rfl⟩
      · exact absurd (FS.read_write_ne fs p q _ hpq) hne

theorem hui_dry (fs : FS) : (hide_update_ui true fs).1 = fs := by
  simp only [hide_update_ui]
  rw [hsto_dry, habt_dry, hbtn_dry]

theorem hui_frame (d : Bool) (fs : FS) (q : String)
    (h1 : ¬ btnPath = q) (h2 : ¬ aboutPath = q) (h3 : ¬ storePath = q) :
    (hide_update_ui d fs).1.read q = fs.read q := by
  simp only [hide_update_ui]
  rw [hsto_frame _ _ _ h3, habt_frame _ _ _ h2, hbtn_frame _ _ _ h1]

theorem hui_out (d1 d2 : Bool) (fs1 fs2 : FS)
    (h1 : fs1.read btnPath = fs2.read btnPath)
    (h2 : fs1.read aboutPath = fs2.read aboutPath)
    (h3 : fs1.read storePath = fs2.read storePath) :
    (hide_update_ui d1 fs1).2 = (hide_update_ui d2 fs2).2 := by
  simp only [hide_update_ui]
  have e1 := hbtn_out d1 d2 fs1 fs2 h1
  have e2 := habt_out d1 d2 (hideUpdateBtnStep d1 fs1).1 (hideUpdateBtnStep d2 fs2).1
    (by rw [hbtn_frame d1 fs1 aboutPath (by decide), hbtn_frame d2 fs2 aboutPath (by decide), h2])
  have e3 := hsto_out d1 d2
    (hideAboutStep d1 (hideUpdateBtnStep d1 fs1).1).1
    (hideAboutStep d2 (hideUpdateBtnStep d2 fs2).1).1
    (by rw [habt_frame d1 _ storePath (by decide), habt_frame d2 _ storePath (by decide),
          hbtn_frame d1 fs1 storePath (by decide), hbtn_frame d2 fs2 storePath (by decide), h3])
  rw [e1, e2, e3]

theorem hui_chg (fs : FS) (q : String)
    (hne : (hide_update_ui false fs).1.read q ≠ fs.read q) :
    (fs.read q).isSome = true ∧ (q = btnPath ∨ q = aboutPath ∨ q = storePath) := by
  simp only [hide_update_ui] at hne
  by_cases c1 : (hideUpdateBtnStep false fs).1.read q = fs.read q
  · by_cases c2 : (hideAboutStep false (hideUpdateBtnStep false fs).1).1.read q =
        (hideUpdateBtnStep false fs).1.read q
    · have c3 : (hideStoreStep false
          (hideAboutStep false (hideUpdateBtnStep false fs).1).1).1.read q ≠
          (hideAboutStep false (hideUpdateBtnStep false fs).1).1.read q := by
        intro hcontra
        apply hne
        rw [hcontra, c2, c1]
      rcases hsto_chg _ q c3 with ⟨ha, hb⟩
      rw [c2, c1] at ha
      exact ⟨ha, Or.inr (Or.inr hb)⟩
    · rcases habt_chg _ q c2 with ⟨ha, hb⟩
      rw [c1] at ha
      exact ⟨ha, Or.inr (Or.inl hb)⟩
  · rcases hbtn_chg _ q c1 with ⟨ha, hb⟩
    exact ⟨ha, Or.inl hb⟩

/-! ## Rule property bundles and the write map -/

/-- The per-rule properties the orchestrator-level proofs rely on: dry runs
do not touch the file system, only the rule's own paths are written, the
outcome depends only on the rule's own paths (and not on the dry flag), and
a changed path was readable before and belongs to the rule's paths. -/
def RuleProps (f : Bool → FS → FS × Bool) (W : List String) : Prop :=
  (∀ fs, (f true fs).1 = fs) ∧
  (∀ d fs q, ¬ q ∈ W → ((f d fs).1).read q = fs.read q) ∧
  (∀ d1 d2 fs1 fs2, (∀ p ∈ W, fs1.read p = fs2.read p) → (f d1 fs1).2 = (f d2 fs2).2) ∧
  (∀ fs q, ((f false fs).1).read q ≠ fs.read q → (fs.read q).isSome = true ∧ q ∈ W)

/-- Target paths of each named rule. -/
def ruleW (n : String) : List String :=
  if n = "hideDataSettings" then [settingsPagePath]
  else if n = "applyBailianFix" then [bailianPath]
  else if n = "hideUpdateUI" then [btnPath, aboutPath, storePath]
  else if n = "electronBuilderYml" then [ebPath]
  else if n = "packageJson" then [pkgPath]
  else []

theorem ruleProps_single (f : Bool → FS → FS × Bool) (w : String)
    (hdry : ∀ fs, (f true fs).1 = fs)
    (hfr : ∀ d fs q, ¬ w = q → ((f d fs).1).read q = fs.read q)
    (hout : ∀ d1 d2 fs1 fs2, fs1.read w = fs2.read w → (f d1 fs1).2 = (f d2 fs2).2)
    (hchg : ∀ fs q, ((f false fs).1).read q ≠ fs.read q →
      (fs.read q).isSome = true ∧ q = w) :
    RuleProps f [w] := by
  refine ⟨hdry, ?_, ?_, ?_⟩
  · intro d fs q hq
    exact hfr d fs q (fun hw => hq (by simp [hw]))
  · intro d1 d2 fs1 fs2 hr
    exact hout d1 d2 fs1 fs2 (hr w (by simp))
  · intro fs q hne
    rcases hchg fs q hne with ⟨ha, hb⟩
    exact ⟨ha, by simp [hb]⟩

theorem ruleProps_msp :
    RuleProps (fun d fs => modify_settings_page d fs settingsPagePath) [settingsPagePath] :=
  ruleProps_single _ _ (fun fs => msp_dry fs _) (fun d fs q hq => msp_frame d fs _ q hq)
    (fun d1 d2 fs1 fs2 h => msp_out d1 d2 fs1 fs2 _ h)
    (fun fs q hne => msp_chg fs _ q hne)

theorem ruleProps_mbs :
    RuleProps (fun d fs => modify_bailian_strategy d fs bailianPath) [bailianPath] :=
  ruleProps_single _ _ (fun fs => mbs_dry fs _) (fun d fs q hq => mbs_frame d fs _ q hq)
    (fun d1 d2 fs1 fs2 h => mbs_out d1 d2 fs1 fs2 _ h)
    (fun fs q hne => mbs_chg fs _ q hne)

theorem ruleProps_hui :
    RuleProps (fun d fs => hide_update_ui d fs) [btnPath, aboutPath, storePath] := by
  refine ⟨hui_dry, ?_, ?_, ?_⟩
  · intro d fs q hq
    refine hui_frame d fs q ?_ ?_ ?_ <;> intro he <;> exact hq (by simp [he])
  · intro d1 d2 fs1 fs2 hr
    exact hui_out d1 d2 fs1 fs2 (hr btnPath (by simp)) (hr aboutPath (by simp))
      (hr storePath (by simp))
  · intro fs q hne
    rcases hui_chg fs q hne with ⟨ha, hb⟩
    refine ⟨ha, ?_⟩
    rcases hb with hb | hb | hb <;> simp [hb]

theorem ruleProps_yml (yl : DocLoad) (yd : DocDump) (a b : String) :
    RuleProps (fun d fs => modify_electron_builder_yml yl yd d fs ebPath a b) [ebPath] :=
  ruleProps_single _ _ (fun fs => yml_dry yl yd fs _ a b)
    (fun d fs q hq => yml_frame yl yd d fs _ a b q hq)
    (fun d1 d2 fs1 fs2 h => yml_out yl yd d1 d2 fs1 fs2 _ a b h)
    (fun fs q hne => yml_chg yl yd fs _ a b q hne)

theorem ruleProps_pkg (jl : DocLoad) (jd : DocDump) (a b v : String) :
    RuleProps (fun d fs => modify_package_json jl jd d fs pkgPath a b v) [pkgPath] :=
  ruleProps_single _ _ (fun fs => pkg_dry jl jd fs _ a b v)
    (fun d fs q hq => pkg_frame jl jd d fs _ a b v q hq)
    (fun d1 d2 fs1 fs2 h => pkg_out jl jd d1 d2 fs1 fs2 _ a b v h)
    (fun fs q hne => pkg_chg jl jd fs _ a b v q hne)

theorem ruleList_props (yl : DocLoad) (yd : DocDump) (jl : DocLoad) (jd : DocDump)
    (cfg : Config) :
    ∀ x ∈ ruleList yl yd jl jd cfg, RuleProps x.2.2 (ruleW x.1) := by
  intro x hx
  simp only [ruleList, List.mem_cons, List.mem_singleton, List.not_mem_nil] at hx
  rcases hx with rfl | rfl | rfl | rfl | rfl | hx
  · simpa [ruleW] using ruleProps_msp
  · simpa [ruleW] using ruleProps_mbs
  · simpa [ruleW] using ruleProps_hui
  · simpa [ruleW] using ruleProps_yml yl yd cfg.appId cfg.productName
  · simpa [ruleW] using ruleProps_pkg jl jd cfg.packageName cfg.productName cfg.version
  · cases hx

/-! ## Generic orchestration lemmas over the rule list -/

theorem mpGo_dry_fs (l : List MRule) (hp : ∀ x ∈ l, RuleProps x.2.2 (ruleW x.1)) :
    ∀ st : MState, (mpGo true l st).fs = st.fs := by
  induction l with
  | nil => intro st; rfl
  | cons a rest ih =>
    intro st
    obtain ⟨n, e, f⟩ := a
    rw [mpGo]
    rw [ih (fun x hx => hp x (List.mem_cons_of_mem _ hx))]
    cases e
    · rfl
    · have hd := (hp (n, true, f) (List.mem_cons_self _ _)).1
      simp only [runStep]
      exact hd st.fs

theorem mpGo_results_dry_wet (fs0 : FS) :
    ∀ (l : List MRule), (∀ x ∈ l, RuleProps x.2.2 (ruleW x.1)) →
    List.Pairwise (fun a b => ∀ q ∈ ruleW a.1, ¬ q ∈ ruleW b.1) l →
    ∀ (s1 s2 : MState), s1.fs = fs0 → s1.results = s2.results →
    (∀ x ∈ l, ∀ q ∈ ruleW x.1, s2.fs.read q = fs0.read q) →
    (mpGo true l s1).results = (mpGo false l s2).results := by
  intro l
  induction l with
  | nil =>
    intro _ _ s1 s2 _ hres _
    exact hres
  | cons a rest ih =>
    intro hp hsep s1 s2 hfs hres hagree
    obtain ⟨n, e, f⟩ := a
    rw [mpGo, mpGo]
    rcases List.pairwise_cons.mp hsep with ⟨hsep1, hsep2⟩
    cases e
    · rw [if_neg (by decide : ¬ ((false : Bool) = true)),
        if_neg (by decide : ¬ ((false : Bool) = true))]
      exact ih (fun x hx => hp x (List.mem_cons_of_mem _ hx)) hsep2 s1 s2 hfs hres
        (fun x hx q hq => hagree x (List.mem_cons_of_mem _ hx) q hq)
    · rw [if_pos rfl, if_pos rfl]
      have hmem : ((n, true, f) : MRule) ∈ (n, true, f) :: rest := List.mem_cons_self _ _
      have hout : (f true s1.fs).2 = (f false s2.fs).2 := by
        apply (hp _ hmem).2.2.1
        intro p hpW
        rw [hfs]
        exact (hagree _ hmem p hpW).symm
      apply ih (fun x hx => hp x (List.mem_cons_of_mem _ hx)) hsep2
      · show (runStep n s1 (f true s1.fs)).fs = fs0
        simp only [runStep]
        rw [(hp _ hmem).1, hfs]
      · simp only [runStep]
        rw [hres, hout]
      · intro x hx q hq
        show (runStep n s2 (f false s2.fs)).fs.read q = fs0.read q
        have hnotW : ¬ q ∈ ruleW n := fun hqn => hsep1 x hx q hqn hq
        simp only [runStep]
        rw [(hp _ hmem).2.1 false s2.fs q hnotW]
        exact hagree x (List.mem_cons_of_mem _ hx) q hq

theorem mpGo_chg :
    ∀ (l : List MRule), (∀ x ∈ l, RuleProps x.2.2 (ruleW x.1)) →
    ∀ (st : MState) (q : String), (mpGo false l st).fs.read q ≠ st.fs.read q →
    (st.fs.read q).isSome = true ∧ ∃ x ∈ l, q ∈ ruleW x.1 := by
  intro l
  induction l with
  | nil =>
    intro _ st q hne
    exact absurd rfl hne
  | cons a rest ih =>
    intro hp st q hne
    obtain ⟨n, e, f⟩ := a
    rw [mpGo] at hne
    by_cases hc : (if e then runStep n st (f false st.fs) else st).fs.read q = st.fs.read q
    · have hne' : (mpGo false rest (if e then runStep n st (f false st.fs) else st)).fs.read q ≠
          (if e then runStep n st (f false st.fs) else st).fs.read q := by
        rw [hc]
        exact hne
      rcases ih (fun x hx => hp x (List.mem_cons_of_mem _ hx)) _ q hne' with ⟨h1, x, hx, hq⟩
      rw [hc] at h1
      exact ⟨h1, x, List.mem_cons_of_mem _ hx, hq⟩
    · cases e
      · exact absurd (by rw [if_neg (by decide : ¬ ((false : Bool) = true))]) hc
      · rw [if_pos rfl] at hc
        have hch : (f false st.fs).1.read q ≠ st.fs.read q := by
          intro hcontra
          exact hc (by simpa [runStep] using hcontra)
        rcases (hp (n, true, f) (List.mem_cons_self _ _)).2.2.2 st.fs q hch with ⟨h1, h2⟩
        exact ⟨h1, (n, true, f), List.mem_cons_self _ _, h2⟩

/-- Distinct rules write disjoint path sets. -/
theorem ruleW_pairs :
    ∀ a ∈ ["hideDataSettings", "applyBailianFix", "hideUpdateUI",
        "electronBuilderYml", "packageJson"],
      ∀ b ∈ ["hideDataSettings", "applyBailianFix", "hideUpdateUI",
        "electronBuilderYml", "packageJson"],
        a ≠ b → ∀ q ∈ ruleW a, ¬ q ∈ ruleW b := by
  decide

theorem ruleList_sep (yl : DocLoad) (yd : DocDump) (jl : DocLoad) (jd : DocDump)
    (cfg : Config) :
    List.Pairwise (fun a b => ∀ q ∈ ruleW a.1, ¬ q ∈ ruleW b.1)
      (ruleList yl yd jl jd cfg) := by
  refine List.Pairwise.cons ?_ (List.Pairwise.cons ?_ (List.Pairwise.cons ?_
    (List.Pairwise.cons ?_ (List.Pairwise.cons ?_ List.Pairwise.nil))))
  · intro b hb
    simp only [List.mem_cons, List.not_mem_nil, or_false] at hb
    rcases hb with rfl | rfl | rfl | rfl
    · exact ruleW_pairs "hideDataSettings" (by decide) "applyBailianFix" (by decide) (by decide)
    · exact ruleW_pairs "hideDataSettings" (by decide) "hideUpdateUI" (by decide) (by decide)
    · exact ruleW_pairs "hideDataSettings" (by decide) "electronBuilderYml" (by decide) (by decide)
    · exact ruleW_pairs "hideDataSettings" (by decide) "packageJson" (by decide) (by decide)
  · intro b hb
    simp only [List.mem_cons, List.not_mem_nil, or_false] at hb
    rcases hb with rfl | rfl | rfl
    · exact ruleW_pairs "applyBailianFix" (by decide) "hideUpdateUI" (by decide) (by decide)
    · exact ruleW_pairs "applyBailianFix" (by decide) "electronBuilderYml" (by decide) (by decide)
    · exact ruleW_pairs "applyBailianFix" (by decide) "packageJson" (by decide) (by decide)
  · intro b hb
    simp only [List.mem_cons, List.not_mem_nil, or_false] at hb
    rcases hb with rfl | rfl
    · exact ruleW_pairs "hideUpdateUI" (by decide) "electronBuilderYml" (by decide) (by decide)
    · exact ruleW_pairs "hideUpdateUI" (by decide) "packageJson" (by decide) (by decide)
  · intro b hb
    simp only [List.mem_cons, List.not_mem_nil, or_false] at hb
    rcases hb with rfl
    exact ruleW_pairs "electronBuilderYml" (by decide) "packageJson" (by decide) (by decide)
  · intro b hb
    exact absurd hb (List.not_mem_nil b)

/-- Every path a rule can write belongs to the fixed backup list. -/
theorem ruleW_sub_files (n : String) : ∀ q ∈ ruleW n, q ∈ files_to_modify := by
  intro q hq
  rw [ruleW] at hq
  split_ifs at hq <;> fin_cases hq <;> decide

theorem modifyPhase_dry_fs (yl : DocLoad) (yd : DocDump) (jl : DocLoad) (jd : DocDump)
    (cfg : Config) (fs : FS) :
    (modifyPhase yl yd jl jd cfg true fs).fs = fs :=
  mpGo_dry_fs _ (ruleList_props yl yd jl jd cfg) _

theorem mainRun_fs_dry (yl : DocLoad) (yd : DocDump) (jl : DocLoad) (jd : DocDump)
    (fw : String → Bool) (cfg : Config) (fs0 : FS) :
    (mainRun yl yd jl jd fw cfg true fs0).fs = (backupPhase fw fs0).2 := by
  have hmp := modifyPhase_dry_fs yl yd jl jd cfg (backupPhase fw fs0).2
  rw [mainRun]
  split
  · exact hmp
  · split
    · exact hmp
    · rename_i hd
      exact absurd rfl hd

/-! ## Backup phase lemmas -/

theorem backup_file_dir (fw : String → Bool) (bm : BM) (fs : FS) (p : String) :
    (backup_file fw bm fs p).1.backup_dir = bm.backup_dir := by
  cases h : fs.read p
  · simp [backup_file, h]
  · simp only [backup_file, h]
    split <;> rfl

theorem backup_file_read_frame (fw : String → Bool) (bm : BM) (fs : FS) (p q : String)
    (hq : ¬ backupPath bm.backup_dir p = q) :
    (backup_file fw bm fs p).2.1.read q = fs.read q := by
  cases h : fs.read p
  · simp [backup_file, h]
  · simp only [backup_file, h]
    split
    · rfl
    · exact FS.read_write_ne fs _ q _ hq

theorem backup_file_mem_mono (fw : String → Bool) (bm : BM) (fs : FS) (p x : String)
    (hx : x ∈ bm.backed_up_files) :
    x ∈ (backup_file fw bm fs p).1.backed_up_files := by
  cases h : fs.read p
  · simpa [backup_file, h] using hx
  · simp only [backup_file, h]
    split
    · exact hx
    · exact List.mem_append_left _ hx

theorem backupGo_mem_mono (fw : String → Bool) :
    ∀ (l : List String) (bm : BM) (fs : FS) (x : String),
      x ∈ bm.backed_up_files → x ∈ (backupGo fw l bm fs).1.backed_up_files := by
  intro l
  induction l with
  | nil => intro bm fs x hx; exact hx
  | cons p rest ih =>
    intro bm fs x hx
    rw [backupGo]
    exact ih _ _ x (backup_file_mem_mono fw bm fs p x hx)

theorem backupGo_read_frame (fw : String → Bool) :
    ∀ (l : List String) (bm : BM) (fs : FS) (q : String),
      (∀ p ∈ l, ¬ backupPath bm.backup_dir p = q) →
      (backupGo fw l bm fs).2.read q = fs.read q := by
  intro l
  induction l with
  | nil => intro bm fs q _; rfl
  | cons p rest ih =>
    intro bm fs q hq
    rw [backupGo]
    have hd := backup_file_dir fw bm fs p
    have hrest : ∀ a ∈ rest, ¬ backupPath (backup_file fw bm fs p).1.backup_dir a = q := by
      intro a ha
      rw [hd]
      exact hq a (List.mem_cons_of_mem _ ha)
    rw [ih _ _ q hrest]
    exact backup_file_read_frame fw bm fs p q (hq p (List.mem_cons_self _ _))

theorem backupGo_records (fw : String → Bool) :
    ∀ (l : List String) (bm : BM) (fs : FS) (p : String) (c : List Char),
      p ∈ l →
      l.Nodup →
      (∀ a ∈ l, fw (backupPath bm.backup_dir a) = false) →
      (∀ a ∈ l, ∀ b ∈ l, ¬ backupPath bm.backup_dir a = b) →
      (∀ a ∈ l, ∀ b ∈ l, ¬ a = b →
        ¬ backupPath bm.backup_dir a = backupPath bm.backup_dir b) →
      fs.read p = some c →
      p ∈ (backupGo fw l bm fs).1.backed_up_files ∧
      (backupGo fw l bm fs).2.read (backupPath bm.backup_dir p) = some c := by
  intro l
  induction l with
  | nil =>
    intro bm fs p c hp _ _ _ _ _
    exact absurd hp (List.not_mem_nil p)
  | cons a rest ih =>
    intro bm fs p c hp hnd hfw hcol hdist hread
    rw [backupGo]
    by_cases hap : a = p
    · subst hap
      have hbf : backup_file fw bm fs a =
          (⟨bm.backup_dir, bm.backed_up_files ++ [a]⟩,
            fs.write (backupPath bm.backup_dir a) c, true) :=
        backup_file_some hread (hfw a (List.mem_cons_self _ _))
      rw [hbf]
      constructor
      · apply backupGo_mem_mono
        simp
      · have hfr : ∀ x ∈ rest,
            ¬ backupPath (⟨bm.backup_dir, bm.backed_up_files ++ [a]⟩ : BM).backup_dir x =
              backupPath bm.backup_dir a := by
          intro x hx
          have hxa : ¬ x = a := fun hxa => (List.nodup_cons.mp hnd).1 (hxa ▸ hx)
          exact hdist x (List.mem_cons_of_mem _ hx) a (List.mem_cons_self _ _) hxa
        rw [backupGo_read_frame fw rest _ _ _ hfr]
        exact FS.read_write_self fs _ c
    · have hp' : p ∈ rest := by
        rcases List.mem_cons.mp hp with h | h
        · exact absurd h.symm hap
        · exact h
      have hfr : (backup_file fw bm fs a).2.1.read p = fs.read p :=
        backup_file_read_frame fw bm fs a p (hcol a (List.mem_cons_self _ _) p hp)
      have hd := backup_file_dir fw bm fs a
      have hrec := ih (backup_file fw bm fs a).1 (backup_file fw bm fs a).2.1 p c hp'
        ((List.nodup_cons.mp hnd).2)
        (fun x hx => by rw [hd]; exact hfw x (List.mem_cons_of_mem _ hx))
        (fun x hx b hb => by
          rw [hd]
          exact hcol x (List.mem_cons_of_mem _ hx) b (List.mem_cons_of_mem _ hb))
        (fun x hx b hb hxb => by
          rw [hd]
          exact hdist x (List.mem_cons_of_mem _ hx) b (List.mem_cons_of_mem _ hb) hxb)
        (by rw [hfr]; exact hread)
      rcases hrec with ⟨h1, h2⟩
      refine ⟨h1, ?_⟩
      rw [hd] at h2
      exact h2

/-- No backup location coincides with a listed target file. -/
theorem ftm_no_collide :
    ∀ a ∈ files_to_modify, ∀ b ∈ files_to_modify, ¬ backupPath backupDir a = b := by
  decide

/-- The fixed file list has no duplicates. -/
theorem ftm_nodup : files_to_modify.Nodup := by decide

/-- Distinct targets get distinct backup locations. -/
theorem ftm_bp_distinct :
    ∀ a ∈ files_to_modify, ∀ b ∈ files_to_modify, ¬ a = b →
      ¬ backupPath backupDir a = backupPath backupDir b := by
  decide

theorem backupPhase_read_target (fw : String → Bool) (fs0 : FS) (q : String)
    (hq : q ∈ files_to_modify) :
    (backupPhase fw fs0).2.read q = fs0.read q := by
  apply backupGo_read_frame
  intro a ha
  exact ftm_no_collide a ha q hq

theorem backupPhase_records (fs0 : FS) (p : String) (c : List Char)
    (hp : p ∈ files_to_modify) (hc : fs0.read p = some c) :
    p ∈ (backupPhase (fun _ => false) fs0).1.backed_up_files ∧
    (backupPhase (fun _ => false) fs0).2.read (backupPath backupDir p) = some c := by
  apply backupGo_records (fun _ => false) files_to_modify _ fs0 p c hp ftm_nodup
    (fun a _ => rfl) ftm_no_collide ftm_bp_distinct hc

/-! ## Claim C10: backups are written even in dry-run mode -/

/-- C10: in dry-run mode the backup phase still copies every existing target
file into the backup directory: after a dry run the backup location of any
target file that existed holds its pre-run content (the dry-run flag gates
only writes to target files). -/
theorem c10_dry_run_backups (yl : DocLoad) (yd : DocDump) (jl : DocLoad) (jd : DocDump)
    (cfg : Config) (fs0 : FS) (p : String) (c : List Char)
    (hp : p ∈ files_to_modify) (hc : fs0.read p = some c) :
    ((mainRun yl yd jl jd (fun _ => false) cfg true fs0).fs).read
      (backupPath backupDir p) = some c := by
  rw [mainRun_fs_dry]
  exact (backupPhase_records fs0 p c hp hc).2

set_option maxRecDepth 100000 in
/-- Witness for C10: after a dry run over a tree containing only
SettingsPage.tsx, its backup copy is on disk. -/
theorem c10_witness :
    (settingsPagePath ∈ files_to_modify ∧
     (⟨[(settingsPagePath, chs "hello")]⟩ : FS).read settingsPagePath = some (chs "hello")) ∧
    ((mainRun (fun _ => none) (fun _ => []) (fun _ => none) (fun _ => [])
        (fun _ => false) ⟨true, true, true, true, "a", "b", "c", "d"⟩ true
        ⟨[(settingsPagePath, chs "hello")]⟩).fs).read
      (backupPath backupDir settingsPagePath) = some (chs "hello") :=
  ⟨⟨by decide, by decide⟩,
    c10_dry_run_backups (fun _ => none) (fun _ => []) (fun _ => none) (fun _ => [])
      ⟨true, true, true, true, "a", "b", "c", "d"⟩ ⟨[(settingsPagePath, chs "hello")]⟩
      settingsPagePath (chs "hello") (by decide) (by decide)⟩

/-! ## Claim C6: dry-run purity -/

/-- C6: a dry run leaves the on-disk contents of every target file exactly
as they were, and records for every rule the same outcome as the same run
without dry-run would record. -/
theorem c6_dry_run_purity (yl : DocLoad) (yd : DocDump) (jl : DocLoad) (jd : DocDump)
    (fw : String → Bool) (cfg : Config) (fs0 : FS) :
    (∀ p, p ∈ files_to_modify →
      ((mainRun yl yd jl jd fw cfg true fs0).fs).read p = fs0.read p) ∧
    (mainRun yl yd jl jd fw cfg true fs0).ruleResults =
      (mainRun yl yd jl jd fw cfg false fs0).ruleResults := by
  constructor
  · intro p hp
    rw [mainRun_fs_dry]
    exact backupPhase_read_target fw fs0 p hp
  · rw [mainRun_ruleResults, mainRun_ruleResults]
    exact mpGo_results_dry_wet (backupPhase fw fs0).2 _
      (ruleList_props yl yd jl jd cfg) (ruleList_sep yl yd jl jd cfg)
      ⟨(backupPhase fw fs0).2, [], true⟩ ⟨(backupPhase fw fs0).2, [], true⟩
      rfl rfl (fun _ _ _ _ => rfl)

set_option maxRecDepth 100000 in
/-- Witness for C6 at a concrete tree: the target file is untouched by the
dry run. -/
theorem c6_witness :
    settingsPagePath ∈ files_to_modify ∧
    ((mainRun (fun _ => none) (fun _ => []) (fun _ => none) (fun _ => [])
        (fun _ => false) ⟨true, false, false, false, "a", "b", "c", "d"⟩ true
        ⟨[(settingsPagePath, chs "abc")]⟩).fs).read settingsPagePath =
      (⟨[(settingsPagePath, chs "abc")]⟩ : FS).read settingsPagePath :=
  ⟨by decide,
    (c6_dry_run_purity (fun _ => none) (fun _ => []) (fun _ => none)
      (fun _ => []) (fun _ => false) ⟨true, false, false, false, "a", "b", "c", "d"⟩
      ⟨[(settingsPagePath, chs "abc")]⟩).1 settingsPagePath (by decide)⟩

/-! ## Claim C7: backup before mutation -/

/-- Tree for the C7 counterexample: SettingsPage.tsx in a shape the rule will
modify. -/
def c7fs : FS :=
  ⟨[(settingsPagePath, chs "import DataSettings from \x27./DataSettings/DataSettings\x27\nkeep")]⟩

/-- Backup I/O failure on exactly the SettingsPage backup destination. -/
def c7fw : String → Bool :=
  fun p => decide (p = ".customize-backup/SettingsPage.tsx.bak")

/-- Configuration enabling only the DataSettings rule. -/
def c7cfg : Config := ⟨true, false, false, false, "", "", "", ""⟩

set_option maxRecDepth 100000 in
/-- C7 (counterexample): when the backup copy of SettingsPage.tsx itself
fails (an I/O error on the backup destination), the run still overwrites the
target file while the backup store has no record of it: the final tree holds
the mutated content and `backed_up_files` is empty. -/
theorem c7_counterexample :
    ((mainRun (fun _ => none) (fun _ => []) (fun _ => none) (fun _ => [])
        c7fw c7cfg false c7fs).fs).read settingsPagePath = some (chs "keep") ∧
    c7fs.read settingsPagePath =
      some (chs "import DataSettings from \x27./DataSettings/DataSettings\x27\nkeep") ∧
    (mainRun (fun _ => none) (fun _ => []) (fun _ => none) (fun _ => [])
        c7fw c7cfg false c7fs).bmFiles = [] := by
  refine ⟨by decide, by decide, by decide⟩

/-- C7 (amended): in a run whose backup copies do not themselves fail, a
target file whose content differs after the modification phase was readable
before the run, has a record in the backup store, and its stored backup
equals its pre-run content. -/
theorem c7_backup_before_mutate_amended (yl : DocLoad) (yd : DocDump)
    (jl : DocLoad) (jd : DocDump) (cfg : Config) (fs0 : FS) (q : String)
    (hne : ((modifyPhase yl yd jl jd cfg false
        (backupPhase (fun _ => false) fs0).2).fs).read q ≠
      ((backupPhase (fun _ => false) fs0).2).read q) :
    ∃ c, fs0.read q = some c ∧
      q ∈ (backupPhase (fun _ => false) fs0).1.backed_up_files ∧
      ((backupPhase (fun _ => false) fs0).2).read (backupPath backupDir q) = some c := by
  have hchg := mpGo_chg _ (ruleList_props yl yd jl jd cfg)
    ⟨(backupPhase (fun _ => false) fs0).2, [], true⟩ q hne
  rcases hchg with ⟨hsome, x, hx, hq⟩
  have hsome' : (((backupPhase (fun _ => false) fs0).2).read q).isSome = true := hsome
  have hqf : q ∈ files_to_modify := ruleW_sub_files x.1 q hq
  have hfb : ((backupPhase (fun _ => false) fs0).2).read q = fs0.read q :=
    backupPhase_read_target _ fs0 q hqf
  rw [hfb] at hsome'
  rcases Option.isSome_iff_exists.mp hsome' with ⟨c, hc⟩
  rcases backupPhase_records fs0 q c hqf hc with ⟨h1, h2⟩
  exact ⟨c, hc, h1, h2⟩

set_option maxRecDepth 100000 in
/-- Witness for C7's amended theorem: without backup I/O failures, the
mutated SettingsPage.tsx has its pristine copy recorded. -/
theorem c7_amended_witness :
    (((modifyPhase (fun _ => none) (fun _ => []) (fun _ => none) (fun _ => []) c7cfg false
        (backupPhase (fun _ => false) c7fs).2).fs).read settingsPagePath ≠
      ((backupPhase (fun _ => false) c7fs).2).read settingsPagePath) ∧
    (∃ c, c7fs.read settingsPagePath = some c ∧
      settingsPagePath ∈ (backupPhase (fun _ => false) c7fs).1.backed_up_files ∧
      ((backupPhase (fun _ => false) c7fs).2).read
        (backupPath backupDir settingsPagePath) = some c) :=
  ⟨by decide,
    c7_backup_before_mutate_amended (fun _ => none) (fun _ => []) (fun _ => none)
      (fun _ => []) c7cfg c7fs settingsPagePath (by decide)⟩

end CustomizeBuild
